import Mathlib

/-!
# Verification of the telesight analytics core

A shallow embedding, in Lean 4, of the pure analytics layer of the
`telesight` chat-archive viewer: the heuristic fraud detector
(`fraud-detection` module), the post scoring and similarity search
(`post-scoring.ts`), the reply-graph builder (`reply-graph` module),
and the calendar "wrapped" streak statistic (`calendar-wrapped.tsx`).

Modelling conventions, used consistently below:

* JavaScript strings are modelled as lists of characters (`Str`).
  String comparison (`Array.prototype.sort` default comparator) is
  UTF-16 code-unit lexicographic order; for the ASCII texts involved
  this agrees with `Char` code-point order.
* `String.prototype.toLowerCase` is modelled on the ASCII range
  (`A`-`Z`); all rule-table keywords are ASCII.
* JavaScript numbers are modelled as `Nat`/`Int`; the only fractional
  intermediates are non-negative ratios that feed `Math.round`, which
  is rounding half-up of an exact integer ratio (`jsRoundRatio`).
* `Array.prototype.sort(cmp)` is stable (ECMAScript 2019); a stable
  sort for a total preorder is unique, so it is modelled by
  `List.insertionSort` with the preorder derived from the comparator.
* JS `Map`/`Set` are modelled by lists in insertion order with
  last-write-wins lookup / membership-deduplicated insertion.
* Calendar dates: the code parses export timestamps with `new Date(s)`
  and only ever reads the local calendar fields
  (`getFullYear`/`getMonth`/`getDate`); a message's date is therefore
  modelled directly as the already-parsed local calendar date `Ymd`
  (with `m` 0-based exactly as `Date.prototype.getMonth` returns it).
  The environment is modelled with a fixed UTC offset (no DST jumps).
-/

/-- JavaScript strings, modelled as their list of characters. -/
abbrev Str := List Char

/-- Literal helper: a Lean string literal as a `Str`. -/
def cs (s : String) : Str := s.toList

/-- The apostrophe character (U+0027), used inside several rule-table
keywords such as `i'm the admin`. -/
def apos : Char := Char.ofNat 39

/-- ASCII lowercase of one character, as `String.prototype.toLowerCase`
acts on the ASCII range. -/
def jsLowerChar (c : Char) : Char :=
  if 'A' ≤ c && c ≤ 'Z' then Char.ofNat (c.toNat + 32) else c

/-- `text.toLowerCase()`. -/
def lowerS (s : Str) : Str := s.map jsLowerChar

/-- `hay.includes(needle)`: substring test. -/
def includesS : Str → Str → Bool
  | [], needle => needle.isEmpty
  | c :: t, needle => needle.isPrefixOf (c :: t) || includesS t needle

/-- The JS `\d` character class. -/
def jsIsDigit (c : Char) : Bool := '0' ≤ c && c ≤ '9'

/-- The JS `\s` character class (the whitespace forms relevant here). -/
def jsIsWs (c : Char) : Bool :=
  c = ' ' || c = '\t' || c = '\n' || c = '\x0d' ||
  c = '\x0b' || c = '\x0c' || c = Char.ofNat 0xa0

/-- The JS `\w` character class: `[A-Za-z0-9_]`. -/
def jsIsWordChar (c : Char) : Bool :=
  ('a' ≤ c && c ≤ 'z') || ('A' ≤ c && c ≤ 'Z') || jsIsDigit c || c = '_'

/-- The character class `[\wЀ-ӿ]` used by the hashtag and
keyword regexes. -/
def jsIsWordOrCyr (c : Char) : Bool :=
  jsIsWordChar c || (0x400 ≤ c.toNat && c.toNat ≤ 0x4FF)

/-- The character class `[а-яА-Я]` (Russian letters) of the homograph
check. -/
def jsIsRussian (c : Char) : Bool :=
  (0x430 ≤ c.toNat && c.toNat ≤ 0x44F) || (0x410 ≤ c.toNat && c.toNat ≤ 0x42F)

/-- ASCII letter test (`[a-zA-Z]`). -/
def jsIsAsciiLetter (c : Char) : Bool :=
  ('a' ≤ c && c ≤ 'z') || ('A' ≤ c && c ≤ 'Z')

/-- `Math.round (num / den)` for non-negative integers with `den > 0`:
the scoring code only ever rounds non-negative integer ratios, and
`round(n/d) = ⌊n/d + 1/2⌋ = ⌊(2n+d) / (2d)⌋` exactly (`Nat` division
is the floor). -/
def jsRoundRatio (num den : Nat) : Nat := (2 * num + den) / (2 * den)

/-- JS truthiness of an optional string field (absent or empty is falsy). -/
def jsTruthyStr : Option Str → Bool
  | none => false
  | some s => !s.isEmpty

/-- JS truthiness of an optional numeric field (absent or `0` is falsy). -/
def jsTruthyInt : Option Int → Bool
  | none => false
  | some n => n != 0

/-- UTF-16 code-unit lexicographic order on (ASCII) strings: the default
`Array.prototype.sort` comparator regards `a` as not-after `b`. -/
def lexLe : Str → Str → Bool
  | [], _ => true
  | _ :: _, [] => false
  | a :: as, b :: bs =>
    if a.toNat < b.toNat then true
    else if b.toNat < a.toNat then false
    else lexLe as bs

/-- `Set.prototype.add` on an insertion-ordered, duplicate-free list. -/
def setAdd (l : List Str) (x : Str) : List Str :=
  if x ∈ l then l else l ++ [x]

/-- Membership-deduplicating insertion for integer sets
(`Set.prototype.add` on a `Set<number>`). -/
def setAddInt (l : List Int) (x : Int) : List Int :=
  if x ∈ l then l else l ++ [x]

-- ── Message model (`telegram-types.ts`) ─────────────────────────────────────

/-- One typed rich-text span of a message body (`TextEntity`). -/
structure TextEntity where
  type : Str
  text : Str
  href : Option Str := none
  deriving Repr, DecidableEq

/-- `MessageText = string | TextEntity`. -/
inductive MessageText where
  | str (s : Str)
  | entity (e : TextEntity)
  deriving Repr, DecidableEq

/-- The `text` field union `string | MessageText[]`. -/
inductive MessageBody where
  | plain (s : Str)
  | parts (l : List MessageText)
  deriving Repr, DecidableEq

/-- One reaction record (`Reaction`).  The sparse `recent` reactor
sample is not consumed by any of the functions verified here and is
omitted. -/
structure Reaction where
  type : Str
  count : Nat
  emoji : Str
  deriving Repr, DecidableEq

/-- A local calendar date as observed through
`getFullYear` / `getMonth` / `getDate`: `m` is 0-based. -/
structure Ymd where
  y : Nat
  m : Nat
  d : Nat
  deriving Repr, DecidableEq

/-- The message record kind: `"message" | "service"`. -/
inductive MsgKind where
  | message
  | service
  deriving Repr, DecidableEq

/-- The canonical message record (`TelegramMessage`), restricted to the
fields the verified functions read. -/
structure TelegramMessage where
  id : Int
  type : MsgKind
  date : Ymd
  text : MessageBody
  reply_to_message_id : Option Int := none
  forwarded_from : Option Str := none
  photo : Option Str := none
  file : Option Str := none
  media_type : Option Str := none
  reactions : Option (List Reaction) := none
  «from» : Option Str := none
  deriving Repr, DecidableEq

/-- `getMessageText`: flatten the rich-text body to plain text. -/
def getMessageText (msg : TelegramMessage) : Str :=
  match msg.text with
  | .plain s => s
  | .parts l => (l.map fun part =>
      match part with
      | .str s => s
      | .entity e => e.text).flatten

/-- `msg.reactions?.reduce((s, r) => s + r.count, 0) || 0`. -/
def reactionTotal (msg : TelegramMessage) : Nat :=
  match msg.reactions with
  | none => 0
  | some rs => (rs.map (·.count)).sum

-- ── Heuristic fraud detector (fraud-detection module) ───────────────────────

/-- `FraudType`. -/
inductive FraudType where
  | phishing
  | money_request
  | impersonation
  | urgency
  | suspicious_link
  deriving Repr, DecidableEq, BEq

/-- The severity bucket `"low" | "medium" | "high" | "critical"`. -/
inductive Severity where
  | low
  | medium
  | high
  | critical
  deriving Repr, DecidableEq, BEq

/-- `FraudResult`. -/
structure FraudResult where
  message : TelegramMessage
  type : FraudType
  severity : Severity
  score : Nat
  reasons : List Str
  matchedPatterns : List Str
  deriving Repr, DecidableEq

/-- `SUSPICIOUS_DOMAINS`. -/
def SUSPICIOUS_DOMAINS : List Str :=
  [cs "bit.ly", cs "tinyurl", cs "t.co", cs "goo.gl", cs "ow.ly", cs "short.link",
   cs "login-", cs "verify-", cs "secure-", cs "account-", cs "update-",
   cs "telegram-security", cs "telegram-verify", cs "tg-official",
   cs "free-nitro", cs "discord-gift", cs "steam-gift",
   cs "binance-", cs "coinbase-", cs "crypto-", cs "wallet-",
   cs "paypal-verify", cs "banking-", cs "secure-bank"]

/-- `PHISHING_KEYWORDS`. -/
def PHISHING_KEYWORDS : List Str :=
  [cs "click here to verify", cs "confirm your account", cs "suspicious activity",
   cs "account will be suspended", cs "verify your identity", cs "login to continue",
   cs "update your information", cs "security alert", cs "unusual login",
   cs "confirm password", cs "validate account", cs "reactivate account"]

/-- `MONEY_KEYWORDS` (the two keywords containing an apostrophe are
assembled with `apos`). -/
def MONEY_KEYWORDS : List Str :=
  [cs "send me", cs "transfer", cs "wire money", cs "send money", cs "pay me",
   cs "urgent payment", cs "immediately", cs "asap", cs "right now",
   cs "don" ++ [apos] ++ cs "t delay",
   cs "family emergency", cs "hospital", cs "accident", cs "stuck in",
   cs "lost my wallet", cs "phone died", cs "stranded", cs "need help",
   cs "double your money", cs "guaranteed return", cs "investment opportunity",
   cs "crypto opportunity", cs "forex trading", cs "binary options",
   cs "send $", cs "send €", cs "send £", cs "transfer $", cs "wire $",
   cs "bitcoin", cs "ethereum", cs "crypto", cs "usdt", cs "tether",
   cs "western union", cs "moneygram", cs "gift card", cs "itunes card"]

/-- `IMPERSONATION_PATTERNS`. -/
def IMPERSONATION_PATTERNS : List Str :=
  [cs "i am the admin", cs "i" ++ [apos] ++ cs "m the admin", cs "this is official",
   cs "telegram support", cs "telegram team", cs "official team",
   cs "as your admin", cs "channel owner", cs "group administrator",
   cs "i work for telegram", cs "telegram staff", cs "support team",
   cs "verify your account", cs "mandatory verification",
   cs "dm me to verify", cs "message me privately",
   cs "don" ++ [apos] ++ cs "t tell anyone"]

/-- `URGENCY_PATTERNS`. -/
def URGENCY_PATTERNS : List Str :=
  [cs "act now", cs "limited time", cs "expires soon", cs "last chance",
   cs "only today", cs "24 hours only", cs "urgent", cs "emergency",
   cs "hurry", cs "don" ++ [apos] ++ cs "t wait", cs "immediately", cs "right away",
   cs "quickly", cs "as soon as possible", cs "time sensitive"]

-- ── Small regex matchers ─────────────────────────────────────────────────────
-- The detector uses a handful of fixed regular expressions.  Each is
-- compiled here into an explicit scanner; none of them needs
-- backtracking (every `+`/`?` is followed by a literal that cannot
-- overlap the repeated class), so greedy non-backtracking matching is
-- exact.

/-- Consume a literal (case-sensitive), returning the remainder. -/
def splitLit (lit s : Str) : Option Str :=
  if lit.isPrefixOf s then some (s.drop lit.length) else none

/-- Consume a literal up to ASCII case, returning the remainder. -/
def splitLitCI (lit s : Str) : Option Str :=
  if lit.length ≤ s.length && lowerS (s.take lit.length) = lowerS lit then
    some (s.drop lit.length)
  else none

/-- Consume one-or-more characters of a class (greedy `+`). -/
def chomp1 (p : Char → Bool) (s : Str) : Option Str :=
  let run := s.takeWhile p
  if run.isEmpty then none else some (s.drop run.length)

/-- Does a (non-anchored) test match at some position of the string? -/
def testAnywhere (p : Str → Bool) : Str → Bool
  | [] => p []
  | c :: t => p (c :: t) || testAnywhere p t

/-- Match `https?:\/\/[^\s)]+` at the head of `s` (case-insensitive);
returns the matched URL (original case) and the remainder. -/
def matchUrlAt (s : Str) : Option (Str × Str) :=
  match splitLitCI (cs "http") s with
  | none => none
  | some s1 =>
    let s2 := match s1 with
      | c :: t => if jsLowerChar c = 's' then t else s1
      | [] => s1
    match splitLit (cs "://") s2 with
    | none => none
    | some s3 =>
      let body := s3.takeWhile fun c => !(jsIsWs c || c = ')')
      if body.isEmpty then none
      else
        let rest := s3.drop body.length
        some (s.take (s.length - rest.length), rest)

/-- `text.match(/https?:\/\/[^\s)]+/gi) || []`: all non-overlapping
matches, scanning left to right.  Every match consumes at least one
character, so `fuel = s.length` steps always suffice. -/
def extractUrlsAux : Nat → Str → List Str
  | 0, _ => []
  | _, [] => []
  | fuel + 1, c :: t =>
    match matchUrlAt (c :: t) with
    | some (url, rest) => url :: extractUrlsAux fuel rest
    | none => extractUrlsAux fuel t

/-- All URLs of a text (see `extractUrlsAux`). -/
def extractUrls (s : Str) : List Str := extractUrlsAux s.length s

/-- `/bit\.ly|tinyurl|t\.co|goo\.gl|ow\.ly|short\.link/i.test(lowerUrl)`:
an alternation of literals is a disjunction of substring tests (the
input is already lowercased). -/
def shortenerTest (lowerUrl : Str) : Bool :=
  [cs "bit.ly", cs "tinyurl", cs "t.co", cs "goo.gl", cs "ow.ly",
   cs "short.link"].any fun d => includesS lowerUrl d

/-- Match `https?:\/\/\d+\.\d+\.\d+\.\d+` at the head (case-sensitive,
as in the source regex). -/
def matchIpAt (s : Str) : Bool :=
  (Option.isSome <| (splitLit (cs "http") s).bind fun s1 =>
    let s2 := match s1 with
      | c :: t => if c = 's' then t else s1
      | [] => s1
    (splitLit (cs "://") s2).bind fun s3 =>
    (chomp1 jsIsDigit s3).bind fun s4 =>
    (splitLit (cs ".") s4).bind fun s5 =>
    (chomp1 jsIsDigit s5).bind fun s6 =>
    (splitLit (cs ".") s6).bind fun s7 =>
    (chomp1 jsIsDigit s7).bind fun s8 =>
    (splitLit (cs ".") s8).bind fun s9 =>
    chomp1 jsIsDigit s9)

/-- `/https?:\/\/\d+\.\d+\.\d+\.\d+/.test(url)`. -/
def ipTest (url : Str) : Bool := testAnywhere matchIpAt url

/-- Match, at the head of the (already lowercased) text, the regex
`(dm|message)\s+me\s+privately?|contact\s+me\s+privately?|don't\s+tell`
(the trailing optional `y?` cannot affect a bare test). -/
def matchDmAt (s : Str) : Bool :=
  (Option.isSome <|
    ((splitLit (cs "dm") s).orElse fun _ => splitLit (cs "message") s).bind fun s1 =>
    (chomp1 jsIsWs s1).bind fun s2 =>
    (splitLit (cs "me") s2).bind fun s3 =>
    (chomp1 jsIsWs s3).bind fun s4 =>
    splitLit (cs "privatel") s4) ||
  (Option.isSome <|
    (splitLit (cs "contact") s).bind fun s1 =>
    (chomp1 jsIsWs s1).bind fun s2 =>
    (splitLit (cs "me") s2).bind fun s3 =>
    (chomp1 jsIsWs s3).bind fun s4 =>
    splitLit (cs "privatel") s4) ||
  (Option.isSome <|
    (splitLit (cs "don" ++ [apos] ++ cs "t") s).bind fun s1 =>
    (chomp1 jsIsWs s1).bind fun s2 =>
    splitLit (cs "tell") s2)

/-- `/(dm|message)\s+me\s+privately?|contact\s+me\s+privately?|don't\s+tell/i.test(lowerText)`. -/
def dmPrivatelyTest (lowerText : Str) : Bool := testAnywhere matchDmAt lowerText

/-- Match `banned\s+permanently` at the head. -/
def matchBannedAt (s : Str) : Bool :=
  (Option.isSome <|
    (splitLit (cs "banned") s).bind fun s1 =>
    (chomp1 jsIsWs s1).bind fun s2 =>
    splitLit (cs "permanently") s2)

/-- `/suspended|disabled|blocked|banned\s+permanently/i.test(lowerText)`. -/
def suspensionTest (lowerText : Str) : Bool :=
  includesS lowerText (cs "suspended") || includesS lowerText (cs "disabled") ||
  includesS lowerText (cs "blocked") || testAnywhere matchBannedAt lowerText

/-- `/password|login|credential|username/i.test(text)`: case-insensitive
alternation of literals. -/
def credentialTest (text : Str) : Bool :=
  [cs "password", cs "login", cs "credential", cs "username"].any fun w =>
    includesS (lowerS text) w

-- ── Detector checks ──────────────────────────────────────────────────────────

/-- Result shape of `checkSuspiciousUrl`. -/
structure UrlCheck where
  isSuspicious : Bool
  urls : List Str
  reasons : List Str
  deriving Repr, DecidableEq

/-- Result shape of `checkMoneyRequest` / `checkImpersonation` /
`checkPhishing`. -/
structure CheckRes where
  detected : Bool
  reasons : List Str
  score : Nat
  deriving Repr, DecidableEq

/-- `checkSuspiciousUrl`. -/
def checkSuspiciousUrl (text : Str) : UrlCheck :=
  let urls := extractUrls text
  let reasons := urls.flatMap fun url =>
    let lowerUrl := lowerS url
    ((SUSPICIOUS_DOMAINS.filter fun domain => includesS lowerUrl domain).map
        fun domain => cs "Suspicious domain: " ++ domain) ++
    (if shortenerTest lowerUrl then
        [cs "URL shortener detected (hides real destination)"] else []) ++
    (if ipTest url then [cs "Direct IP address link (suspicious)"] else []) ++
    (if lowerUrl.any jsIsRussian && url.any jsIsAsciiLetter then
        [cs "Mixed alphabet characters (possible spoofing)"] else []) ++
    (if includesS url (cs "@") && includesS url (cs "http") then
        [cs "URL contains @ symbol (credential stuffing)"] else [])
  { isSuspicious := !reasons.isEmpty, urls := urls, reasons := reasons }

/-- The test `amountPattern.test(text)` with
`amountPattern = /\$?\d+\s*(usd|eur|gbp|btc|eth)?|\$\d+/gi`: both the
`$` prefix and the currency suffix of the first alternative are
optional, so the regex matches at some position exactly when the text
contains a decimal digit. -/
def amountPatternTest (text : Str) : Bool := text.any jsIsDigit

/-- `checkMoneyRequest`. -/
def checkMoneyRequest (text : Str) : CheckRes :=
  let lowerText := lowerS text
  let kwHits := MONEY_KEYWORDS.filter fun keyword => includesS lowerText (lowerS keyword)
  let hasAmount := amountPatternTest text
  let hasUrgency := URGENCY_PATTERNS.any fun p => includesS lowerText (lowerS p)
  let hasMoney := MONEY_KEYWORDS.any fun k => includesS lowerText (lowerS k)
  let emotionalWords := [cs "please help", cs "beg you", cs "desperate",
                         cs "emergency", cs "family"]
  let emoHits := emotionalWords.filter fun word => includesS lowerText word
  let score := 3 * kwHits.length + (if hasAmount then 2 else 0) +
    (if hasUrgency && hasMoney then 5 else 0) + 2 * emoHits.length
  let reasons :=
    (kwHits.map fun keyword => cs "Money keyword: \"" ++ keyword ++ cs "\"") ++
    (if hasAmount then [cs "Specific amount mentioned"] else []) ++
    (if hasUrgency && hasMoney then
        [cs "Urgency + money request combination (high risk)"] else []) ++
    (emoHits.map fun word => cs "Emotional manipulation: \"" ++ word ++ cs "\"")
  { detected := score > 0, reasons := reasons, score := score }

/-- `checkImpersonation` (the `sender` argument is received but never
read, exactly as in the source). -/
def checkImpersonation (text : Str) (_sender : Option Str) : CheckRes :=
  let lowerText := lowerS text
  let patHits := IMPERSONATION_PATTERNS.filter fun pattern =>
    includesS lowerText (lowerS pattern)
  let authorityWords := [cs "official", cs "administrator", cs "moderator",
                         cs "support", cs "staff"]
  -- the source condition is `includes(word) && includes("i am") || includes("i'm")`:
  -- `&&` binds tighter than `||`, so a bare `i'm` fires for every word
  let authHits := authorityWords.filter fun word =>
    (includesS lowerText word && includesS lowerText (cs "i am")) ||
    includesS lowerText (cs "i" ++ [apos] ++ cs "m")
  let hasVerify := includesS lowerText (cs "verify") &&
    (includesS lowerText (cs "account") || includesS lowerText (cs "profile"))
  let hasDm := dmPrivatelyTest lowerText
  let score := 4 * patHits.length + 3 * authHits.length +
    (if hasVerify then 3 else 0) + (if hasDm then 4 else 0)
  let reasons :=
    (patHits.map fun pattern => cs "Impersonation claim: \"" ++ pattern ++ cs "\"") ++
    (authHits.map fun word => cs "Authority claim: \"" ++ word ++ cs "\"") ++
    (if hasVerify then [cs "Demands account verification"] else []) ++
    (if hasDm then [cs "Requests private communication (isolation tactic)"] else [])
  { detected := score > 0, reasons := reasons, score := score }

/-- `checkPhishing`. -/
def checkPhishing (text : Str) : CheckRes :=
  let lowerText := lowerS text
  let kwHits := PHISHING_KEYWORDS.filter fun keyword =>
    includesS lowerText (lowerS keyword)
  let hasCred := credentialTest text
  let hasSusp := suspensionTest lowerText
  let score := 3 * kwHits.length + (if hasCred then 5 else 0) +
    (if hasSusp then 4 else 0)
  let reasons :=
    (kwHits.map fun keyword => cs "Phishing phrase: \"" ++ keyword ++ cs "\"") ++
    (if hasCred then [cs "Requests credentials or login info"] else []) ++
    (if hasSusp then [cs "Threatens account suspension"] else [])
  { detected := score > 0, reasons := reasons, score := score }

/-- The urgency test of `analyzeMessageForFraud`. -/
def urgencyTest (text : Str) : Bool :=
  includesS (lowerS text) (cs "urgent") ||
  includesS (lowerS text) (cs "emergency") ||
  includesS (lowerS text) (cs "immediately")

/-- The cumulative fraud score of a message: the source accumulates the
same summands into `totalScore` with `+=` as the checks run. -/
def fraudTotalScore (message : TelegramMessage) : Nat :=
  let text := getMessageText message
  let urlCheck := checkSuspiciousUrl text
  let phishingCheck := checkPhishing text
  let moneyCheck := checkMoneyRequest text
  let impersonationCheck := checkImpersonation text message.«from»
  (if urlCheck.isSuspicious then
      urlCheck.reasons.length * 2 +
      (if phishingCheck.detected then phishingCheck.score else 0)
    else 0) +
  (if moneyCheck.detected then moneyCheck.score else 0) +
  (if impersonationCheck.detected then impersonationCheck.score else 0) +
  (if urgencyTest text then 2 else 0)

/-- The severity bucketing of `analyzeMessageForFraud`. -/
def severityOf (totalScore : Nat) : Severity :=
  if totalScore ≥ 10 then .critical
  else if totalScore ≥ 7 then .high
  else if totalScore ≥ 4 then .medium
  else .low

/-- `analyzeMessageForFraud`.  The source mutates `primaryType`
sequentially; here each mutation is one `let` step.  (The source's
`maxSeverityScore` variable is written but never read and is omitted.)
The embedding is a total function: the source cannot throw, as every
step is pattern matching over the already-flattened text. -/
def analyzeMessageForFraud (message : TelegramMessage) : Option FraudResult :=
  if message.type ≠ .message then none
  else
    let text := getMessageText message
    if text.isEmpty || text.length < 5 then none
    else
      let urlCheck := checkSuspiciousUrl text
      let phishingCheck := checkPhishing text
      let moneyCheck := checkMoneyRequest text
      let impersonationCheck := checkImpersonation text message.«from»
      let urgencyCheck := urgencyTest text
      let primaryType0 : FraudType := .suspicious_link
      let primaryType1 :=
        if urlCheck.isSuspicious && phishingCheck.detected then FraudType.phishing
        else primaryType0
      let primaryType2 :=
        if moneyCheck.detected then FraudType.money_request else primaryType1
      let primaryType :=
        if impersonationCheck.detected && !(decide (primaryType2 = FraudType.money_request))
        then FraudType.impersonation else primaryType2
      let reasons :=
        (if urlCheck.isSuspicious then
            urlCheck.reasons ++
            (if phishingCheck.detected then phishingCheck.reasons else [])
          else []) ++
        (if moneyCheck.detected then moneyCheck.reasons else []) ++
        (if impersonationCheck.detected then impersonationCheck.reasons else []) ++
        (if urgencyCheck then [cs "Uses urgency language"] else [])
      let matchedPatterns :=
        (if urlCheck.isSuspicious then [cs "suspicious_url"] else []) ++
        (if moneyCheck.detected then [cs "money_request"] else []) ++
        (if impersonationCheck.detected then [cs "impersonation"] else []) ++
        (if urgencyCheck then [cs "urgency"] else [])
      let totalScore := fraudTotalScore message
      let severity := severityOf totalScore
      if totalScore < 3 then none
      else some { message := message, type := primaryType, severity := severity,
                  score := totalScore, reasons := reasons,
                  matchedPatterns := matchedPatterns }

/-- `severityLevels`. -/
def sevRank : Severity → Nat
  | .low => 1
  | .medium => 2
  | .high => 3
  | .critical => 4

/-- The options object of `findFraud`, with its defaults. -/
structure FindFraudOptions where
  minSeverity : Severity := .low
  maxResults : Nat := 50
  types : Option (List FraudType) := none

/-- `findFraud`. -/
def findFraud (messages : List TelegramMessage) (options : FindFraudOptions) :
    List FraudResult :=
  let minLevel := sevRank options.minSeverity
  let results := messages.filterMap fun message =>
    match analyzeMessageForFraud message with
    | none => none
    | some fraud =>
      if sevRank fraud.severity < minLevel then none
      else match options.types with
        | some ts => if ts.contains fraud.type then some fraud else none
        | none => some fraud
  -- `results.sort((a, b) => b.score - a.score)`: stable descending sort
  let sorted := results.insertionSort fun a b => b.score ≤ a.score
  sorted.take options.maxResults

/-- The aggregate record returned by `getFraudStats`;
`byType`/`bySeverity` are tally functions. -/
structure FraudStats where
  total : Nat
  byType : FraudType → Nat
  bySeverity : Severity → Nat
  topContributors : List (Str × Nat × Nat)

/-- `fraud.message.from || "Unknown"`. -/
def senderOf (fraud : FraudResult) : Str :=
  match fraud.message.«from» with
  | some s => if s.isEmpty then cs "Unknown" else s
  | none => cs "Unknown"

/-- `senderScores` accumulation: a JS `Map` keeps the insertion position
of an existing key on update, and appends new keys. -/
def bumpSender (acc : List (Str × Nat × Nat)) (name : Str) (score : Nat) :
    List (Str × Nat × Nat) :=
  if acc.any (fun e => e.1 = name) then
    acc.map fun e => if e.1 = name then (e.1, e.2.1 + 1, e.2.2 + score) else e
  else acc ++ [(name, 1, score)]

/-- `getFraudStats`. -/
def getFraudStats (messages : List TelegramMessage) : FraudStats :=
  let allFraud := findFraud messages { maxResults := 1000 }
  let byType : FraudType → Nat := allFraud.foldl
    (fun acc fraud => fun t => if t = fraud.type then acc t + 1 else acc t)
    (fun _ => 0)
  let bySeverity : Severity → Nat := allFraud.foldl
    (fun acc fraud => fun v => if v = fraud.severity then acc v + 1 else acc v)
    (fun _ => 0)
  let senderScores := allFraud.foldl
    (fun acc fraud => bumpSender acc (senderOf fraud) fraud.score) []
  let topContributors :=
    (senderScores.insertionSort fun a b => b.2.2 ≤ a.2.2).take 5
  { total := allFraud.length, byType := byType, bySeverity := bySeverity,
    topContributors := topContributors }

-- ── Post scoring & similarity (`post-scoring.ts`) ───────────────────────────

/-- `PostScore.breakdown`. -/
structure PostScoreBreakdown where
  reactions : ℤ
  textLength : ℤ
  media : ℤ
  links : ℤ
  replies : ℤ
  forwarded : ℤ
  deriving Repr, DecidableEq

/-- `PostScore`. -/
structure PostScore where
  total : ℤ
  breakdown : PostScoreBreakdown
  percentile : ℤ
  label : Str
  deriving Repr, DecidableEq

/-- The corpus maximum of per-post reaction totals (the `maxReactions`
accumulation loop of `computePostScore`). -/
def maxReactionsOf (posts : List TelegramMessage) : Nat :=
  posts.foldl (fun acc m => let r := reactionTotal m; if r > acc then r else acc) 0

/-- The corpus maximum of text lengths (the `maxTextLen` loop). -/
def maxTextLenOf (posts : List TelegramMessage) : Nat :=
  posts.foldl (fun acc m => let t := (getMessageText m).length; if t > acc then t else acc) 0

/-- The six-component breakdown of `computePostScore`, computed for one
message against the two corpus maxima (shared verbatim by the
percentile loop).  The two rounded ratios are
`Math.round((totalReactions / maxReactions) * 50)` and
`Math.round(Math.min(textLen / Math.max(maxTextLen * 0.3, 1), 1) * 20)`,
rewritten over integers: with `D = max(3·maxTextLen, 10)` the inner
ratio is `10·textLen / D`, so the `Math.min(…, 1)` branch is
`10·textLen ≥ D`, and otherwise the value is `round(200·textLen / D)`.
(JS `0.3` is the exact rational `3/10` here; no claim depends on a
sub-ulp float difference.) -/
def scoreBreakdown (maxReactions maxTextLen : Nat) (m : TelegramMessage) :
    PostScoreBreakdown :=
  let totalReactions := reactionTotal m
  let text := getMessageText m
  let textLen := text.length
  let hasMedia : ℤ :=
    if jsTruthyStr m.photo || jsTruthyStr m.file || jsTruthyStr m.media_type then 1 else 0
  let hasLinks : ℤ :=
    if includesS text (cs "http://") || includesS text (cs "https://") then 1 else 0
  let isReply : ℤ := if jsTruthyInt m.reply_to_message_id then 1 else 0
  let isForwarded : ℤ := if jsTruthyStr m.forwarded_from then 1 else 0
  { reactions :=
      if maxReactions > 0 then
        (jsRoundRatio (totalReactions * 50) maxReactions : ℤ)
      else 0,
    textLength :=
      if maxTextLen > 0 then
        (let D := max (3 * maxTextLen) 10
         if 10 * textLen ≥ D then (20 : ℤ)
         else (jsRoundRatio (200 * textLen) D : ℤ))
      else 0,
    media := hasMedia * 10,
    links := hasLinks * 8,
    replies := isReply * 7,
    forwarded := isForwarded * 5 }

/-- The capped total of a breakdown (`Math.min(100, …sum…)`). -/
def breakdownTotal (b : PostScoreBreakdown) : ℤ :=
  min 100 (b.reactions + b.textLength + b.media + b.links + b.replies + b.forwarded)

/-- The percentile label thresholds of `computePostScore`. -/
def percentileLabel (percentile : ℤ) : Str :=
  if percentile ≥ 95 then cs "Exceptional"
  else if percentile ≥ 80 then cs "Strong"
  else if percentile ≥ 60 then cs "Above Average"
  else if percentile ≥ 40 then cs "Average"
  else if percentile ≥ 20 then cs "Below Average"
  else cs "Low"

/-- `computePostScore`. -/
def computePostScore (message : TelegramMessage)
    (allMessages : List TelegramMessage) : PostScore :=
  let posts := allMessages.filter fun m => decide (m.type = .message)
  let maxReactions := maxReactionsOf posts
  let maxTextLen := maxTextLenOf posts
  let breakdown := scoreBreakdown maxReactions maxTextLen message
  let total := breakdownTotal breakdown
  let allScores := posts.map fun m =>
    breakdownTotal (scoreBreakdown maxReactions maxTextLen m)
  -- `allScores.sort((a, b) => a - b)` (ascending) feeds only a count, kept verbatim
  let sorted := allScores.insertionSort fun a b => a ≤ b
  let rank := (sorted.filter fun s => s ≤ total).length
  -- `Math.round((rank / Math.max(allScores.length, 1)) * 100)`
  let percentile : ℤ := jsRoundRatio (rank * 100) (max sorted.length 1)
  { total := total, breakdown := breakdown, percentile := percentile,
    label := percentileLabel percentile }

-- ── findSimilarPosts ────────────────────────────────────────────────────────

/-- `SimilarPost`. -/
structure SimilarPost where
  message : TelegramMessage
  score : ℤ
  reasons : List Str
  deriving Repr, DecidableEq

/-- The fixed stop-word list of `findSimilarPosts`. -/
def stopWords : List Str :=
  [cs "that", cs "this", cs "with", cs "from", cs "have", cs "been", cs "will",
   cs "your", cs "what", cs "when", cs "where", cs "which", cs "their",
   cs "there", cs "would", cs "could", cs "should", cs "about", cs "after",
   cs "before", cs "being", cs "between", cs "both", cs "each", cs "also",
   cs "than", cs "then", cs "them", cs "they", cs "into", cs "just",
   cs "very", cs "some", cs "more", cs "only", cs "over", cs "such",
   cs "like", cs "http", cs "https", cs "were", cs "does", cs "done",
   cs "make", cs "made", cs "much", cs "many", cs "most", cs "other",
   cs "these", cs "those"]

/-- `text.match(/#[\wЀ-ӿ]+/gi)`: all non-overlapping hashtag matches,
scanning left to right; each emitted match consumes at least one
character beyond its `#`, so `fuel = s.length` suffices. -/
def scanHashtagsAux : Nat → Str → List Str
  | 0, _ => []
  | _, [] => []
  | fuel + 1, c :: t =>
    if c = '#' then
      let run := t.takeWhile jsIsWordOrCyr
      if run.isEmpty then scanHashtagsAux fuel t
      else ('#' :: run) :: scanHashtagsAux fuel (t.drop run.length)
    else scanHashtagsAux fuel t

/-- All hashtag matches of a text. -/
def scanHashtags (s : Str) : List Str := scanHashtagsAux s.length s

/-- The hashtag `Set` of a message: lowercased `hashtag`-typed entities
of a rich-text body, then the regex matches over the lowercased text,
deduplicated in insertion order. -/
def msgHashtagSet (msg : TelegramMessage) (lowText : Str) : List Str :=
  let fromEntities := match msg.text with
    | .parts l => l.filterMap fun part =>
        match part with
        | .entity e => if e.type = cs "hashtag" then some (lowerS e.text) else none
        | .str _ => none
    | .plain _ => []
  (fromEntities ++ (scanHashtags lowText).map lowerS).foldl setAdd []

/-- `.replace(/[^\w\sЀ-ӿ]/g, " ")`. -/
def replaceNonWord (s : Str) : Str :=
  s.map fun c => if jsIsWordOrCyr c || jsIsWs c then c else ' '

/-- The maximal non-whitespace chunks of a string (each maximal
whitespace run is exactly one `/\s+/` separator match). -/
def wsChunksAux : Nat → Str → List Str
  | 0, _ => []
  | _, [] => []
  | fuel + 1, c :: t =>
    if jsIsWs c then wsChunksAux fuel t
    else
      let run := (c :: t).takeWhile fun x => !jsIsWs x
      run :: wsChunksAux fuel ((c :: t).drop run.length)

/-- `s.split(/\s+/)`: the non-whitespace chunks, plus an empty leading
token when the string starts with a separator (or is empty) and an
empty trailing token when it ends with one — exactly the ECMAScript
`String.prototype.split` semantics for a nonempty-match regex. -/
def jsSplitWs (s : Str) : List Str :=
  let lead := match s with
    | [] => true
    | c :: _ => jsIsWs c
  let trail := match s.getLast? with
    | some c => jsIsWs c
    | none => false
  (if lead then [([] : Str)] else []) ++ wsChunksAux s.length s ++
    (if trail then [([] : Str)] else [])

/-- The significant-keyword `Set` of a lowercased text: split on
whitespace after punctuation removal, keep words longer than 4 that are
not stop words, deduplicated in insertion order. -/
def keywordSet (lowText : Str) : List Str :=
  ((jsSplitWs (replaceNonWord lowText)).filter fun w =>
    w.length > 4 && !stopWords.contains w).foldl setAdd []

/-- Decimal digits of a number, for the template strings. -/
def natStr (n : Nat) : Str := Nat.toDigits 10 n

/-- The per-candidate body of the `findSimilarPosts` loop: combined
score and reasons.  The target's hashtag and keyword sets are computed
from the same pure expressions the source hoists out of the loop. -/
def similarEval (target msg : TelegramMessage) : ℤ × List Str :=
  let targetText := lowerS (getMessageText target)
  let targetHashtags := msgHashtagSet target targetText
  let targetWords := keywordSet targetText
  let msgText := lowerS (getMessageText msg)
  let msgHashtags := msgHashtagSet msg msgText
  let matchedTags := targetHashtags.filter fun tag => decide (tag ∈ msgHashtags)
  let sharedHashtags := matchedTags.length
  let msgWords := keywordSet msgText
  let sharedWords := (targetWords.filter fun w => decide (w ∈ msgWords)).length
  let hashtagScore : ℤ := if sharedHashtags > 0 then (sharedHashtags : ℤ) * 30 else 0
  -- `Math.min(40, Math.round((sharedWords / Math.max(targetWords.size, 1)) * 40))`
  let wordScore : ℤ :=
    if sharedWords > 0 && targetWords.length > 0 then
      min 40 (jsRoundRatio (sharedWords * 40) (max targetWords.length 1) : ℤ)
    else 0
  let forwardBonus : ℤ :=
    if jsTruthyStr target.forwarded_from &&
        decide (msg.forwarded_from = target.forwarded_from) then 15 else 0
  let mediaBonus : ℤ :=
    if jsTruthyStr target.media_type &&
        decide (msg.media_type = target.media_type) then 5 else 0
  let reasons :=
    (if sharedHashtags > 0 then
      [natStr sharedHashtags ++ cs " shared hashtag" ++
       (if sharedHashtags > 1 then cs "s" else []) ++ cs ": " ++
       List.intercalate (cs ", ") (matchedTags.take 3)]
     else []) ++
    (if sharedWords > 0 && targetWords.length > 0 then
      [natStr sharedWords ++ cs " shared keyword" ++
       (if sharedWords > 1 then cs "s" else [])]
     else []) ++
    (if jsTruthyStr target.forwarded_from &&
        decide (msg.forwarded_from = target.forwarded_from) then
      [cs "Same source: " ++ (target.forwarded_from.getD [])]
     else []) ++
    (if jsTruthyStr target.media_type &&
        decide (msg.media_type = target.media_type) then
      [cs "Same media type"]
     else [])
  (hashtagScore + wordScore + forwardBonus + mediaBonus, reasons)

/-- The combined similarity score of a candidate against a target. -/
def similarScore (target msg : TelegramMessage) : ℤ := (similarEval target msg).1

/-- `findSimilarPosts`. -/
def findSimilarPosts (target : TelegramMessage)
    (allMessages : List TelegramMessage) (limit : Nat := 6) : List SimilarPost :=
  let posts := allMessages.filter fun m =>
    decide (m.type = .message) && decide (m.id ≠ target.id)
  let candidates := posts.filterMap fun msg =>
    let ev := similarEval target msg
    if ev.1 > 10 then some ⟨msg, ev.1, ev.2⟩ else none
  (candidates.insertionSort fun a b => b.score ≤ a.score).take limit

-- ── Reply-graph builder (reply-graph module) ────────────────────────────────

/-- `GraphNode`.  The `radius` field — a display hint
`Math.max(6, Math.min(20, 6 + Math.sqrt(reactionCount) * 1.5))` — and
the optional d3-force simulation coordinates are irrational-valued
rendering data with no semantic content and are not modelled. -/
structure GraphNode where
  id : Int
  message : TelegramMessage
  text : Str
  date : Ymd
  reactionCount : Nat
  hasMedia : Bool
  isForwardedReply : Bool
  chainId : Nat
  deriving Repr, DecidableEq

/-- `GraphEdge` (`sourceNode`/`targetNode` are never set by the builder
and are omitted). -/
structure GraphEdge where
  source : Int
  target : Int
  deriving Repr, DecidableEq

/-- `ReplyChain`. -/
structure ReplyChain where
  id : Nat
  nodes : List GraphNode
  edges : List GraphEdge
  rootId : Int
  depth : Nat
  deriving Repr, DecidableEq

/-- `ReplyGraphData`. -/
structure ReplyGraphData where
  nodes : List GraphNode
  edges : List GraphEdge
  chains : List ReplyChain
  selfReplyCount : Nat
  crossChannelReplyCount : Nat
  deriving Repr, DecidableEq

/-- `createPhantomMessage` (the `date` string `"1970-01-01T00:00:00"`
reads back as calendar date (1970, month 0, day 1)). -/
def createPhantomMessage (id : Int) : TelegramMessage :=
  { id := id, type := .message, date := ⟨1970, 0, 1⟩,
    text := .plain (cs "[External / missing message]") }

/-- `messageMap.get(id)`: the `Map` is filled by one pass of
`messageMap.set(msg.id, msg)`, so a duplicated id keeps the last
occurrence. -/
def messageMapGet (messages : List TelegramMessage) (id : Int) :
    Option TelegramMessage :=
  (messages.filter fun m => decide (m.id = id)).getLast?

/-- The reply-classification pass of `buildReplyGraph` (step 2/3 of the
algorithm): returns `(selfReplyCount, crossChannelReplyCount, nodeIds,
edges)`. -/
def replyPass (messages : List TelegramMessage) (includeCrossChannel : Bool) :
    Nat × Nat × List Int × List GraphEdge :=
  let replyMessages := messages.filter fun m =>
    decide (m.type = .message) && m.reply_to_message_id.isSome
  replyMessages.foldl
    (fun acc msg =>
      match msg.reply_to_message_id with
      | none => acc
      | some targetId =>
        let (selfC, crossC, nodeIds, edges) := acc
        if (messageMapGet messages targetId).isSome then
          (selfC + 1, crossC, setAddInt (setAddInt nodeIds msg.id) targetId,
           edges ++ [⟨targetId, msg.id⟩])
        else if includeCrossChannel then
          (selfC, crossC + 1, setAddInt (setAddInt nodeIds msg.id) targetId,
           edges ++ [⟨targetId, msg.id⟩])
        else (selfC, crossC + 1, nodeIds, edges))
    (0, 0, [], [])

/-- The undirected adjacency list: for each edge, `target` is pushed
onto the `source` row and then `source` onto the `target` row, in edge
order. -/
def adjGet (edges : List GraphEdge) (id : Int) : List Int :=
  edges.flatMap fun e =>
    (if e.source = id then [e.target] else []) ++
    (if e.target = id then [e.source] else [])

/-- The chain-discovery BFS (`while (queue.length > 0)`); returns the
dequeue order and the final visited set.  `fuel` bounds the number of
loop iterations; every node is enqueued at most once (it is marked
visited when enqueued), so any `fuel` larger than the number of
enqueued nodes reproduces the source loop exactly. -/
def bfsLoop (edges : List GraphEdge) :
    Nat → List Int → List Int → List Int → List Int × List Int
  | 0, _, visited, acc => (acc.reverse, visited)
  | _ + 1, [], visited, acc => (acc.reverse, visited)
  | fuel + 1, current :: rest, visited, acc =>
    let step := (adjGet edges current).foldl
      (fun (p : List Int × List Int) neighbor =>
        if neighbor ∈ p.1 then p else (neighbor :: p.1, p.2 ++ [neighbor]))
      (visited, rest)
    bfsLoop edges fuel step.2 step.1 (current :: acc)

/-- The outer chain loop (`for (const startId of nodeIds)`): one BFS
round per not-yet-visited start, collecting each round's dequeued node
ids. -/
def chainRounds (edges : List GraphEdge) (fuel : Nat) :
    List Int → List Int → List (List Int)
  | [], _ => []
  | startId :: restIds, visited =>
    if startId ∈ visited then chainRounds edges fuel restIds visited
    else
      let res := bfsLoop edges fuel [startId] (startId :: visited) []
      res.1 :: chainRounds edges fuel restIds res.2

/-- The final `chainId` of a node: the source sets `node.chainId` once,
during the BFS round that dequeues it (rounds are numbered from 1). -/
def chainIdOf (rounds : List (List Int)) (id : Int) : Nat :=
  match rounds.findIdx? (fun r => decide (id ∈ r)) with
  | some idx => idx + 1
  | none => 0

/-- Node construction (the body of the `for (const id of nodeIds)`
loop), with the node's final `chainId`. -/
def mkNode (messages : List TelegramMessage) (rounds : List (List Int))
    (id : Int) : GraphNode :=
  let msg := messageMapGet messages id
  { id := id,
    message := msg.getD (createPhantomMessage id),
    text := (match msg with
      | some m => getMessageText m
      | none => cs "[External message]").take 120,
    date := match msg with
      | some m => m.date
      | none => ⟨1970, 0, 1⟩,
    reactionCount := match msg with
      | some m => reactionTotal m
      | none => 0,
    hasMedia := match msg with
      | some m => jsTruthyStr m.photo || jsTruthyStr m.file || jsTruthyStr m.media_type
      | none => false,
    isForwardedReply := msg.isNone,
    chainId := chainIdOf rounds id }

/-- The per-chain depth BFS (`depthQueue` loop): follows directed
`source → target` chain edges from the root; a node enters
`depthVisited` when enqueued, so `fuel` beyond the chain size
reproduces the loop. -/
def depthBfs (chainEdges : List GraphEdge) :
    Nat → List (Int × Nat) → List Int → Nat → Nat
  | 0, _, _, maxDepth => maxDepth
  | _ + 1, [], _, maxDepth => maxDepth
  | fuel + 1, (cid, depth) :: rest, depthVisited, maxDepth =>
    let step := chainEdges.foldl
      (fun (p : List (Int × Nat) × List Int) e =>
        if e.source = cid ∧ e.target ∉ p.2 then
          (p.1 ++ [(e.target, depth + 1)], e.target :: p.2)
        else p)
      (rest, depthVisited)
    depthBfs chainEdges fuel step.1 step.2 (max maxDepth depth)

/-- Chain assembly for one BFS round (the tail of the outer loop):
chain edges, root selection (`roots[0] || chainNodeIds[0]` — note a
root id `0` is falsy in JS and falls through to the first node), and
the depth BFS. -/
def chainOf (messages : List TelegramMessage) (rounds : List (List Int))
    (edges : List GraphEdge) (idx : Nat) (round : List Int) : ReplyChain :=
  let chainEdges := edges.filter fun e =>
    decide (e.source ∈ round) && decide (e.target ∈ round)
  let hasIncoming := chainEdges.map (·.target)
  let roots := round.filter fun i => !(hasIncoming.contains i)
  let rootId := match roots with
    | r :: _ => if r = 0 then round.headD 0 else r
    | [] => round.headD 0
  { id := idx + 1,
    nodes := round.map (mkNode messages rounds),
    edges := chainEdges,
    rootId := rootId,
    depth := depthBfs chainEdges (round.length + 1) [(rootId, 0)] [rootId] 0 }

/-- `buildReplyGraph`. -/
def buildReplyGraph (messages : List TelegramMessage)
    (includeCrossChannel : Bool) : ReplyGraphData :=
  let pass := replyPass messages includeCrossChannel
  let selfReplyCount := pass.1
  let crossChannelReplyCount := pass.2.1
  let nodeIds := pass.2.2.1
  let edges := pass.2.2.2
  let rounds := chainRounds edges (nodeIds.length + 1) nodeIds []
  let nodes := nodeIds.map (mkNode messages rounds)
  let chains := rounds.enum.map fun p => chainOf messages rounds edges p.1 p.2
  -- `chains.sort((a, b) => b.nodes.length - a.nodes.length)`
  let chainsSorted := chains.insertionSort fun a b => b.nodes.length ≤ a.nodes.length
  { nodes := nodes, edges := edges, chains := chainsSorted,
    selfReplyCount := selfReplyCount,
    crossChannelReplyCount := crossChannelReplyCount }

-- ── Calendar wrapped: the streak statistic (`calendar-wrapped.tsx`) ─────────

/-- The scope selector of `computeWrappedStats`. -/
inductive WrapScope where
  | year (y : Nat)
  | month (y m : Nat)
  | day (y m d : Nat)
  deriving Repr, DecidableEq

/-- The scope filter of `computeWrappedStats` (comparisons of
`getFullYear()/getMonth()/getDate()` against the scope fields). -/
def scopeFilter (scope : WrapScope) (m : TelegramMessage) : Bool :=
  decide (m.type = .message) &&
  match scope with
  | .year y => decide (m.date.y = y)
  | .month y mo => decide (m.date.y = y) && decide (m.date.m = mo)
  | .day y mo d => decide (m.date.y = y) && decide (m.date.m = mo) && decide (m.date.d = d)

/-- The day key `${d.getFullYear()}-${d.getMonth()}-${d.getDate()}`:
unpadded decimal fields joined by `-` (note the 0-based month). -/
def dayKey (d : Ymd) : Str :=
  natStr d.y ++ [Char.ofNat 45] ++ natStr d.m ++ [Char.ofNat 45] ++ natStr d.d

/-- Day number of a civil date (1-based month), used only through
differences; days-since-an-era-base with the standard civil-calendar
formula. -/
def civilDayNumber (y m d : Nat) : Nat :=
  let yy := if m ≤ 2 then y - 1 else y
  let era := yy / 400
  let yoe := yy % 400
  let mp := if m > 2 then m - 3 else m + 9
  let doy := (153 * mp + 2) / 5 + d - 1
  let doe := yoe * 365 + yoe / 4 - yoe / 100 + doy
  era * 146097 + doe

/-- Decimal digits back to a number (the keys are canonical decimal). -/
def digitsToNat (s : Str) : Nat :=
  s.foldl (fun acc c => acc * 10 + (c.toNat - 48)) 0

/-- `new Date(key with dashes replaced by slashes).getTime()`, up to the
affine epoch transform (only 24h-quotient differences of the results
are consumed): parses `y/m/d` with the ECMAScript legacy slash format,
which requires a 1-based month `1..12` and a day `1..31` — in
particular every January key (month field `0`) yields an Invalid Date,
i.e. `none`. -/
def jsParseSlashDate (key : Str) : Option Nat :=
  match key.splitOn (Char.ofNat 45) with
  | [ys, ms, ds] =>
    let y := digitsToNat ys
    let m := digitsToNat ms
    let d := digitsToNat ds
    if 1 ≤ m ∧ m ≤ 12 ∧ 1 ≤ d ∧ d ≤ 31 then some (civilDayNumber y m d) else none
  | _ => none

/-- The streak loop of `computeWrappedStats`: walk consecutive pairs of
the (string-) sorted day keys; `(curr - prev) / 86400000 === 1` is a
day-number difference of exactly 1 and is `false` whenever either
`getTime()` is `NaN` (Invalid Date). -/
def streakDaysOfKeys (sortedDays : List Str) : Nat :=
  let pairs := sortedDays.zip sortedDays.tail
  let res := pairs.foldl
    (fun (p : Nat × Nat) pr =>
      let diffIsOne := match jsParseSlashDate pr.1, jsParseSlashDate pr.2 with
        | some a, some b => decide ((b : ℤ) - (a : ℤ) = 1)
        | _, _ => false
      if diffIsOne then (p.1, p.2 + 1) else (max p.1 p.2, 1))
    (0, 1)
  max res.1 res.2

/-- The `streakDays` field of `computeWrappedStats`: scope filter, the
`daySet` of day keys (a `Set`, in insertion order), the default
(lexicographic) `Array.prototype.sort`, then the streak loop.  (The
other fields of the `WrappedStats` record are independent aggregates
not needed by any claim and are not modelled.) -/
def computeWrappedStreakDays (messages : List TelegramMessage)
    (scope : WrapScope) : Nat :=
  let filtered := messages.filter (scopeFilter scope)
  let daySet := filtered.foldl (fun acc m => setAdd acc (dayKey m.date)) []
  let sortedDays := daySet.insertionSort fun a b => lexLe a b = true
  streakDaysOfKeys sortedDays

-- ── Example inputs for the concrete scenarios ───────────────────────────────

/-- A plain content message posted on a given January 2024 day. -/
def mkJanMsg (i : Int) (d : Nat) : TelegramMessage :=
  { id := i, type := .message, date := ⟨2024, 0, d⟩, text := .plain (cs "hello") }

/-- The C1 corpus: content messages on 2024-01-01 … 2024-01-05, then
2024-01-10 and 2024-01-11. -/
def exMessagesC1 : List TelegramMessage :=
  [mkJanMsg 1 1, mkJanMsg 2 2, mkJanMsg 3 3, mkJanMsg 4 4, mkJanMsg 5 5,
   mkJanMsg 6 10, mkJanMsg 7 11]

/-- The same posting pattern shifted to February 2024 (a month whose
day keys survive the re-parse). -/
def exMessagesC1feb : List TelegramMessage :=
  [{ mkJanMsg 1 1 with date := ⟨2024, 1, 1⟩ },
   { mkJanMsg 2 2 with date := ⟨2024, 1, 2⟩ },
   { mkJanMsg 3 3 with date := ⟨2024, 1, 3⟩ },
   { mkJanMsg 4 4 with date := ⟨2024, 1, 4⟩ },
   { mkJanMsg 5 5 with date := ⟨2024, 1, 5⟩ },
   { mkJanMsg 6 10 with date := ⟨2024, 1, 10⟩ },
   { mkJanMsg 7 11 with date := ⟨2024, 1, 11⟩ }]

/-- The C2 input: a single content message whose reply target id 999 is
absent from the export. -/
def exReplyMsg : TelegramMessage :=
  { id := 1, type := .message, date := ⟨2024, 0, 1⟩,
    text := .plain (cs "hi there"), reply_to_message_id := some 999 }

/-- The C5 scenario message. -/
def exM5 : TelegramMessage :=
  { id := 50, type := .message, date := ⟨2024, 0, 1⟩,
    text := .plain (cs "URGENT: please send me $500 immediately, family emergency"),
    «from» := some (cs "Alice") }

/-- A placeholder result, used only as the `getD` default below. -/
def dummyFraudResult : FraudResult :=
  { message := createPhantomMessage 0, type := .suspicious_link,
    severity := .low, score := 0, reasons := [], matchedPatterns := [] }

/-- The concrete result of the C5 scenario. -/
def exR5 : FraudResult := (analyzeMessageForFraud exM5).getD dummyFraudResult

/-- The C6 scenario message. -/
def exM6 : TelegramMessage :=
  { id := 60, type := .message, date := ⟨2024, 0, 1⟩,
    text := .plain (cs "ok see you tomorrow") }

/-- A money-flavoured message used to witness C3. -/
def exM3 : TelegramMessage :=
  { id := 30, type := .message, date := ⟨2024, 0, 1⟩,
    text := .plain (cs "send me bitcoin immediately please"),
    «from» := some (cs "Bob") }

/-- The concrete result of the C3 witness message. -/
def exR3 : FraudResult := (analyzeMessageForFraud exM3).getD dummyFraudResult

/-- A digit-bearing message with no money keyword, witnessing C9. -/
def exM9 : TelegramMessage :=
  { id := 90, type := .message, date := ⟨2024, 0, 1⟩,
    text := .plain (cs "meeting moved to room 101, tell the official i am busy"),
    «from» := some (cs "Carol") }

/-- The concrete result of the C9 witness message. -/
def exR9 : FraudResult := (analyzeMessageForFraud exM9).getD dummyFraudResult

/-- The C7 boundary target: exactly four significant keywords. -/
def exTargetC7 : TelegramMessage :=
  { id := 100, type := .message, date := ⟨2024, 0, 1⟩,
    text := .plain (cs "alpha bravo charlie delta") }

/-- A candidate sharing exactly one of the four target keywords:
similarity score `round((1/4)·40) = 10` (exact also in binary floating
point, since 1/4 is dyadic). -/
def exCandC7 : TelegramMessage :=
  { id := 101, type := .message, date := ⟨2024, 0, 2⟩,
    text := .plain (cs "alpha zzzzz") }

/-- A candidate sharing two target keywords: similarity score 20. -/
def exCandC7b : TelegramMessage :=
  { id := 102, type := .message, date := ⟨2024, 0, 3⟩,
    text := .plain (cs "alpha bravo zzzzz") }

/-- A placeholder similar-post, used only as the `headD` default below. -/
def dummySimilar : SimilarPost :=
  { message := createPhantomMessage 0, score := 0, reasons := [] }

/-- The single result of `findSimilarPosts` on the C7 witness corpus. -/
def exSimC7 : SimilarPost :=
  (findSimilarPosts exTargetC7 [exTargetC7, exCandC7b] 6).headD dummySimilar

/-- The C4 witness message (7 reactions, empty corpus in the witness). -/
def exPostC4 : TelegramMessage :=
  { id := 40, type := .message, date := ⟨2024, 0, 1⟩, text := .plain (cs "hey"),
    reactions := some [⟨cs "emoji", 7, cs "heart"⟩] }

-- ── Claim C1 ────────────────────────────────────────────────────────────────

/-- **C1** (code bug): for posts on the consecutive days
2024-01-01…2024-01-05 and then 2024-01-10/11, the spec requires
`streakDays = 5`, but the code computes `1`: the day keys
`2024-0-1 … 2024-0-11` use the 0-based `getMonth()` value, so the
re-parse `new Date("2024/0/…")` is an Invalid Date for every January
key, every adjacent difference is `NaN`, and the streak never grows.
(Even in months whose keys do re-parse, the unpadded keys are sorted
lexicographically — `1 < 10 < 11 < 2 < … < 5` — which caps this
scenario's run at 4, as the February variant below shows.) -/
theorem claim_C1_streak_scenario :
    computeWrappedStreakDays exMessagesC1 (.year 2024) = 1 ∧
    computeWrappedStreakDays exMessagesC1feb (.year 2024) = 4 := by
  constructor <;> decide

-- ── Claim C2 ────────────────────────────────────────────────────────────────

/-- **C2** (confirmed): with the single message `{id: 1, replyTarget:
999}` whose target is absent, `buildReplyGraph` with
`includeCrossChannel = false` yields no nodes, no edges and
`crossChannelReplyCount = 1`; with `includeCrossChannel = true` it
yields exactly the two nodes `1` and the phantom `999` (the phantom
flagged external) and one edge, with the same external count. -/
theorem claim_C2_phantom_reply :
    ((buildReplyGraph [exReplyMsg] false).nodes.length = 0 ∧
     (buildReplyGraph [exReplyMsg] false).edges.length = 0 ∧
     (buildReplyGraph [exReplyMsg] false).crossChannelReplyCount = 1) ∧
    ((buildReplyGraph [exReplyMsg] true).nodes.map (·.id) = [1, 999] ∧
     (buildReplyGraph [exReplyMsg] true).edges.length = 1 ∧
     (buildReplyGraph [exReplyMsg] true).crossChannelReplyCount = 1 ∧
     (buildReplyGraph [exReplyMsg] true).nodes.map (·.isForwardedReply) =
       [false, true]) := by
  constructor <;> decide

-- ── Claim C5 ────────────────────────────────────────────────────────────────

/-- **C5** (confirmed): the message `"URGENT: please send me $500
immediately, family emergency"` is classified primary-type
`money_request`; its money check scores 20 — three keyword hits (9)
plus the amount pattern (2) plus the urgency+money co-occurrence bonus
(5), whose reason string is present, plus two emotional-manipulation
hits (4) — and its severity (`critical`, total 22) is at least
`medium` in the ordinal severity order. -/
theorem claim_C5_money_scenario :
    analyzeMessageForFraud exM5 = some exR5 ∧
    exR5.type = .money_request ∧
    sevRank .medium ≤ sevRank exR5.severity ∧
    cs "Urgency + money request combination (high risk)" ∈ exR5.reasons ∧
    (checkMoneyRequest (getMessageText exM5)).score = 20 ∧
    exR5.score = 22 := by
  refine ⟨by decide, by decide, by decide, by decide, by decide, by decide⟩

-- ── Claim C6 ────────────────────────────────────────────────────────────────

/-- **C6** (confirmed): `analyzeMessageForFraud` returns `null` (here
`none`) whenever the cumulative fraud score is below the fixed floor 3
or the flattened text is shorter than the minimum length floor 5 — it
never reports a zero-score result.  (The embedding is a total
function; the source has no throwing operation on any input text.)
The spec's concrete instance `"ok see you tomorrow"` is the witness
below. -/
theorem claim_C6_min_score_gate (m : TelegramMessage)
    (h : fraudTotalScore m < 3 ∨ (getMessageText m).length < 5) :
    analyzeMessageForFraud m = none := by
  simp only [analyzeMessageForFraud]
  split
  · rfl
  · split
    · rfl
    · next hlen =>
        split
        · rfl
        · next hscore =>
            exfalso
            rcases h with hs | hl
            · exact hscore hs
            · exact hlen (by simp [hl])

/-- Witness for C6: the neutral message scores 0 < 3 and produces no
result. -/
theorem claim_C6_witness : analyzeMessageForFraud exM6 = none :=
  claim_C6_min_score_gate exM6 (Or.inl (by decide))

-- ── Claims C3 and C9: the primary-type priority ─────────────────────────────

/-- The sequential `primaryType` mutations of `analyzeMessageForFraud`
collapse to an explicit priority: money-request, then impersonation,
then phishing-if-suspicious-URL-and-phishing, then the
`suspicious_link` default. -/
theorem analyzePrimaryType (m : TelegramMessage) (r : FraudResult)
    (h : analyzeMessageForFraud m = some r) :
    r.type =
      (if (checkMoneyRequest (getMessageText m)).detected then FraudType.money_request
       else if (checkImpersonation (getMessageText m) m.«from»).detected then
         FraudType.impersonation
       else if ((checkSuspiciousUrl (getMessageText m)).isSuspicious &&
           (checkPhishing (getMessageText m)).detected) = true then
         FraudType.phishing
       else FraudType.suspicious_link) := by
  simp only [analyzeMessageForFraud] at h
  split at h
  · simp at h
  · split at h
    · simp at h
    · split at h
      · simp at h
      · rw [Option.some_inj] at h
        subst h
        by_cases hm : (checkMoneyRequest (getMessageText m)).detected = true <;>
          by_cases hi : (checkImpersonation (getMessageText m) m.«from»).detected = true <;>
          by_cases hu : ((checkSuspiciousUrl (getMessageText m)).isSuspicious &&
            (checkPhishing (getMessageText m)).detected) = true <;>
          simp [hm, hi, hu]

/-- **C3** (confirmed): whenever `analyzeMessageForFraud` returns a
result, its `type` follows the fixed priority — `money_request` when
the money check detected, else `impersonation` when the impersonation
check detected, else `phishing` exactly when a suspicious URL and
phishing keywords fired together, else `suspicious_link`. -/
theorem claim_C3_primary_priority (m : TelegramMessage) (r : FraudResult)
    (h : analyzeMessageForFraud m = some r) :
    ((checkMoneyRequest (getMessageText m)).detected = true →
      r.type = FraudType.money_request) ∧
    ((checkMoneyRequest (getMessageText m)).detected = false →
      (checkImpersonation (getMessageText m) m.«from»).detected = true →
      r.type = FraudType.impersonation) ∧
    ((checkMoneyRequest (getMessageText m)).detected = false →
      (checkImpersonation (getMessageText m) m.«from»).detected = false →
      r.type = (if ((checkSuspiciousUrl (getMessageText m)).isSuspicious &&
          (checkPhishing (getMessageText m)).detected) = true then
          FraudType.phishing else FraudType.suspicious_link)) := by
  have ht := analyzePrimaryType m r h
  refine ⟨fun hm => ?_, fun hm hi => ?_, fun hm hi => ?_⟩
  · rw [ht]; simp [hm]
  · rw [ht]; simp [hm, hi]
  · rw [ht]; simp [hm, hi]

/-- Witness for C3: a concrete message on which the money check fired,
classified `money_request`. -/
theorem claim_C3_witness :
    (checkMoneyRequest (getMessageText exM3)).detected = true ∧
    exR3.type = FraudType.money_request :=
  ⟨by decide, (claim_C3_primary_priority exM3 exR3 (by decide)).1 (by decide)⟩

/-- `checkMoneyRequest` reports `detected` exactly when its score is
positive. -/
theorem checkMoneyRequest_detected (t : Str) :
    (checkMoneyRequest t).detected = decide (0 < (checkMoneyRequest t).score) := rfl

/-- **C9** (confirmed): the amount pattern of the money check matches
any digit sequence, so every message whose flattened text contains a
decimal digit has `detected = true` with score at least 2 — and
consequently every fraud result for such a message is primary-type
`money_request`, money keywords or not. -/
theorem claim_C9_digit_forces_money (m : TelegramMessage)
    (h : (getMessageText m).any jsIsDigit = true) :
    (checkMoneyRequest (getMessageText m)).detected = true ∧
    2 ≤ (checkMoneyRequest (getMessageText m)).score ∧
    (∀ r, analyzeMessageForFraud m = some r → r.type = FraudType.money_request) := by
  have hsc : 2 ≤ (checkMoneyRequest (getMessageText m)).score := by
    simp only [checkMoneyRequest, amountPatternTest, h, if_true]
    split_ifs <;> omega
  have hdet : (checkMoneyRequest (getMessageText m)).detected = true := by
    rw [checkMoneyRequest_detected, decide_eq_true_eq]
    omega
  refine ⟨hdet, hsc, fun r hr => ?_⟩
  rw [analyzePrimaryType m r hr]
  simp [hdet]

/-- Witness for C9: a digit-bearing message with no money keyword
still yields a `money_request` classification. -/
theorem claim_C9_witness :
    (checkMoneyRequest (getMessageText exM9)).detected = true ∧
    exR9.type = FraudType.money_request :=
  ⟨(claim_C9_digit_forces_money exM9 (by decide)).1,
   (claim_C9_digit_forces_money exM9 (by decide)).2.2 exR9 (by decide)⟩

-- ── Claim C4 ────────────────────────────────────────────────────────────────

/-- All six breakdown components are non-negative. -/
theorem scoreBreakdown_nonneg (maxR maxT : Nat) (m : TelegramMessage) :
    0 ≤ (scoreBreakdown maxR maxT m).reactions ∧
    0 ≤ (scoreBreakdown maxR maxT m).textLength ∧
    0 ≤ (scoreBreakdown maxR maxT m).media ∧
    0 ≤ (scoreBreakdown maxR maxT m).links ∧
    0 ≤ (scoreBreakdown maxR maxT m).replies ∧
    0 ≤ (scoreBreakdown maxR maxT m).forwarded := by
  simp only [scoreBreakdown]
  refine ⟨?_, ?_, ?_, ?_, ?_, ?_⟩ <;> split_ifs <;>
    simp [Int.natCast_nonneg]

/-- **C4** (confirmed): for every message and every corpus — including
the empty corpus, single-message corpora, all-zero-reaction corpora,
and a target message absent from the corpus — `computePostScore(…).total`
is an integer (it lives in `ℤ` by construction) in `[0, 100]`, and a
zero corpus maximum short-circuits the reactions sub-score to `0`
instead of dividing by zero. -/
theorem claim_C4_score_bounds (m : TelegramMessage)
    (corpus : List TelegramMessage) :
    0 ≤ (computePostScore m corpus).total ∧
    (computePostScore m corpus).total ≤ 100 ∧
    (maxReactionsOf (corpus.filter fun x => decide (x.type = MsgKind.message)) = 0 →
      (computePostScore m corpus).breakdown.reactions = 0) := by
  obtain ⟨h1, h2, h3, h4, h5, h6⟩ :=
    scoreBreakdown_nonneg
      (maxReactionsOf (corpus.filter fun x => decide (x.type = MsgKind.message)))
      (maxTextLenOf (corpus.filter fun x => decide (x.type = MsgKind.message))) m
  refine ⟨?_, ?_, fun h0 => ?_⟩
  · simp only [computePostScore, breakdownTotal] at *
    omega
  · simp only [computePostScore, breakdownTotal] at *
    omega
  · simp only [computePostScore, scoreBreakdown]
    simp [h0]

/-- Witness for C4: a reacted-to message scored against the empty
corpus — the corpus maximum is zero and the reactions sub-score is 0. -/
theorem claim_C4_witness :
    (computePostScore exPostC4 []).breakdown.reactions = 0 :=
  (claim_C4_score_bounds exPostC4 []).2.2 (by decide)

-- ── Claim C7 ────────────────────────────────────────────────────────────────

/-- A `filterMap` whose body is an if-some-else-none is a filter
followed by a map. -/
theorem filterMap_ite {α β : Type} (p : α → Prop) [DecidablePred p] (g : α → β) :
    ∀ l : List α, (l.filterMap fun x => if p x then some (g x) else none) =
      (l.filter fun x => decide (p x)).map g
  | [] => rfl
  | x :: t => by
    by_cases hx : p x <;>
      simp [List.filterMap_cons, List.filter_cons, hx, filterMap_ite p g t]

/-- `findSimilarPosts` as filter-map-sort-take over the candidate
scoring function. -/
theorem findSimilarPosts_eq (target : TelegramMessage)
    (msgs : List TelegramMessage) (limit : Nat) :
    findSimilarPosts target msgs limit =
      ((((msgs.filter fun m =>
            decide (m.type = MsgKind.message) && decide (m.id ≠ target.id)).filter
          fun m => decide (10 < similarScore target m)).map
          fun m => SimilarPost.mk m (similarEval target m).1
            (similarEval target m).2).insertionSort
        fun a b => b.score ≤ a.score).take limit := by
  simp only [findSimilarPosts, similarScore]
  rw [filterMap_ite (fun m => (similarEval target m).1 > 10)
    (fun m => SimilarPost.mk m (similarEval target m).1 (similarEval target m).2)]

/-- **C7** counterexample: a candidate whose combined score is exactly
the minimum 10 — one shared keyword out of four target keywords, i.e.
`round((1/4)·40) = 10`, exact in floating point as well — is *not*
returned: the source keeps candidates only when `score > 10`, so the
claim's "including any candidate scoring exactly 10" fails. -/
theorem claim_C7_counterexample :
    similarScore exTargetC7 exCandC7 = 10 ∧
    findSimilarPosts exTargetC7 [exTargetC7, exCandC7] 6 = [] := by
  constructor <;> decide

/-- **C7** amended: `findSimilarPosts` excludes exactly the candidates
whose combined similarity score is *at most* 10 (strict `> 10` is
required), and the remaining candidates are returned sorted by score
descending and truncated to `limit`: every returned entry is a
distinct-id content message of the corpus carrying its own combined
score above 10; the output is sorted descending; its length is `limit`
capped by the number of qualifying candidates; and whenever the output
is not full, every qualifying candidate appears in it. -/
theorem claim_C7_similarity_threshold (target : TelegramMessage)
    (msgs : List TelegramMessage) (limit : Nat) :
    (∀ r ∈ findSimilarPosts target msgs limit,
      10 < r.score ∧ r.score = similarScore target r.message ∧
      r.message ∈ msgs ∧ r.message.type = MsgKind.message ∧
      r.message.id ≠ target.id) ∧
    (findSimilarPosts target msgs limit).Pairwise (fun a b => b.score ≤ a.score) ∧
    (findSimilarPosts target msgs limit).length =
      min limit (((msgs.filter fun m =>
          decide (m.type = MsgKind.message) && decide (m.id ≠ target.id)).filter
        fun m => decide (10 < similarScore target m)).length) ∧
    (∀ m ∈ msgs, m.type = MsgKind.message → m.id ≠ target.id →
      10 < similarScore target m →
      (findSimilarPosts target msgs limit).length < limit →
      ∃ r ∈ findSimilarPosts target msgs limit, r.message = m) := by
  haveI hT : IsTotal SimilarPost (fun a b => b.score ≤ a.score) :=
    ⟨fun a b => le_total b.score a.score⟩
  haveI hTr : IsTrans SimilarPost (fun a b => b.score ≤ a.score) :=
    ⟨fun a b c h1 h2 => le_trans h2 h1⟩
  have heq := findSimilarPosts_eq target msgs limit
  refine ⟨?_, ?_, ?_, ?_⟩
  · intro r hr
    rw [heq] at hr
    have h1 := List.mem_of_mem_take hr
    rw [List.mem_insertionSort] at h1
    obtain ⟨m, hmc, rfl⟩ := List.mem_map.mp h1
    obtain ⟨hm1, hs⟩ := List.mem_filter.mp hmc
    obtain ⟨hm0, hp⟩ := List.mem_filter.mp hm1
    rw [Bool.and_eq_true, decide_eq_true_eq, decide_eq_true_eq] at hp
    rw [decide_eq_true_eq] at hs
    exact ⟨hs, rfl, hm0, hp.1, hp.2⟩
  · rw [heq]
    exact List.Pairwise.take (List.sorted_insertionSort _ _)
  · rw [heq, List.length_take, List.length_insertionSort, List.length_map]
  · intro m hm hty hid hsc hlen
    have hm1 : m ∈ (msgs.filter fun m =>
        decide (m.type = MsgKind.message) && decide (m.id ≠ target.id)) :=
      List.mem_filter.mpr ⟨hm, by simp [hty, hid]⟩
    have hm2 : m ∈ ((msgs.filter fun m =>
        decide (m.type = MsgKind.message) && decide (m.id ≠ target.id)).filter
        fun m => decide (10 < similarScore target m)) :=
      List.mem_filter.mpr ⟨hm1, by simp [hsc]⟩
    have hm3 : SimilarPost.mk m (similarEval target m).1 (similarEval target m).2 ∈
        (((msgs.filter fun m =>
            decide (m.type = MsgKind.message) && decide (m.id ≠ target.id)).filter
          fun m => decide (10 < similarScore target m)).map
          fun m => SimilarPost.mk m (similarEval target m).1 (similarEval target m).2) :=
      List.mem_map_of_mem _ hm2
    rw [← List.mem_insertionSort (r := fun a b : SimilarPost => b.score ≤ a.score)] at hm3
    have hflush : ((((msgs.filter fun m =>
          decide (m.type = MsgKind.message) && decide (m.id ≠ target.id)).filter
        fun m => decide (10 < similarScore target m)).map
        fun m => SimilarPost.mk m (similarEval target m).1
          (similarEval target m).2).insertionSort
        fun a b => b.score ≤ a.score).take limit =
        (((msgs.filter fun m =>
            decide (m.type = MsgKind.message) && decide (m.id ≠ target.id)).filter
          fun m => decide (10 < similarScore target m)).map
          fun m => SimilarPost.mk m (similarEval target m).1
            (similarEval target m).2).insertionSort
          fun a b => b.score ≤ a.score := by
      apply List.take_of_length_le
      rw [heq, List.length_take] at hlen
      omega
    refine ⟨SimilarPost.mk m (similarEval target m).1 (similarEval target m).2, ?_, rfl⟩
    rw [heq, hflush]
    exact hm3

/-- Witness for the amended C7: on a corpus with one candidate scoring
20, the returned head entry scores above the threshold. -/
theorem claim_C7_witness : 10 < exSimC7.score :=
  ((claim_C7_similarity_threshold exTargetC7 [exTargetC7, exCandC7b] 6).1
    exSimC7 (by decide)).1

-- ── Claim C10 ───────────────────────────────────────────────────────────────

/-- Every severity bucket ranks at least 1. -/
theorem sevRank_pos (v : Severity) : 1 ≤ sevRank v := by
  cases v <;> simp [sevRank]

/-- With the default `minSeverity = "low"` and no type allow-list,
`findFraud` is: flag every message, sort by score descending, truncate
to `maxResults`. -/
theorem findFraud_low_none (messages : List TelegramMessage) (maxR : Nat) :
    findFraud messages ⟨.low, maxR, none⟩ =
      ((messages.filterMap analyzeMessageForFraud).insertionSort
        fun a b => b.score ≤ a.score).take maxR := by
  simp only [findFraud]
  have h : (fun message : TelegramMessage =>
      match analyzeMessageForFraud message with
      | none => none
      | some fraud =>
        if sevRank fraud.severity < sevRank Severity.low then none
        else
          match (none : Option (List FraudType)) with
          | some ts => if ts.contains fraud.type then some fraud else none
          | none => some fraud) = analyzeMessageForFraud := by
    funext message
    cases analyzeMessageForFraud message with
    | none => rfl
    | some fraud =>
      have h1 : ¬ (sevRank fraud.severity < sevRank Severity.low) := by
        have h2 := sevRank_pos fraud.severity
        have h3 : sevRank Severity.low = 1 := rfl
        omega
      simp [h1]
  rw [h]

/-- The `byType` tally fold counts results per type. -/
theorem foldl_byType :
    ∀ (l : List FraudResult) (acc : FraudType → Nat) (t : FraudType),
      (l.foldl (fun acc fraud => fun x => if x = fraud.type then acc x + 1 else acc x)
        acc) t = acc t + (l.filter fun r => decide (r.type = t)).length
  | [], acc, t => by simp
  | fraud :: l, acc, t => by
    simp only [List.foldl_cons, List.filter_cons]
    rw [foldl_byType l _ t]
    by_cases hb : t = fraud.type
    · simp [hb, List.length_cons]
      omega
    · have hb' : ¬(fraud.type = t) := fun h => hb h.symm
      simp [hb, hb']

/-- The `bySeverity` tally fold counts results per severity. -/
theorem foldl_bySeverity :
    ∀ (l : List FraudResult) (acc : Severity → Nat) (v : Severity),
      (l.foldl (fun acc fraud => fun x => if x = fraud.severity then acc x + 1 else acc x)
        acc) v = acc v + (l.filter fun r => decide (r.severity = v)).length
  | [], acc, v => by simp
  | fraud :: l, acc, v => by
    simp only [List.foldl_cons, List.filter_cons]
    rw [foldl_bySeverity l _ v]
    by_cases hb : v = fraud.severity
    · simp [hb, List.length_cons]
      omega
    · have hb' : ¬(fraud.severity = v) := fun h => hb h.symm
      simp [hb, hb']

/-- **C10** (confirmed): `getFraudStats` aggregates
`findFraud(messages, { maxResults: 1000 })`, so its `total` is capped
at 1000 — precisely `min 1000 (number of flagged messages)` — and the
`byType`/`bySeverity` tallies count exactly the entries of that
1000-capped, highest-score-first result list; `topContributors` keeps
at most 5 entries. -/
theorem claim_C10_stats_cap (messages : List TelegramMessage) :
    (getFraudStats messages).total ≤ 1000 ∧
    (getFraudStats messages).total =
      min 1000 ((messages.filterMap analyzeMessageForFraud).length) ∧
    (∀ t, (getFraudStats messages).byType t =
      ((findFraud messages { maxResults := 1000 }).filter
        fun r => decide (r.type = t)).length) ∧
    (∀ v, (getFraudStats messages).bySeverity v =
      ((findFraud messages { maxResults := 1000 }).filter
        fun r => decide (r.severity = v)).length) ∧
    (getFraudStats messages).topContributors.length ≤ 5 := by
  have hff := findFraud_low_none messages 1000
  refine ⟨?_, ?_, ?_, ?_, ?_⟩
  · simp only [getFraudStats]
    rw [hff, List.length_take]
    omega
  · simp only [getFraudStats]
    rw [hff, List.length_take, List.length_insertionSort]
  · intro t
    simp only [getFraudStats]
    rw [foldl_byType]
    omega
  · intro v
    simp only [getFraudStats]
    rw [foldl_bySeverity]
    omega
  · simp only [getFraudStats]
    exact List.length_take_le _ _


-- ── Claim C8 ────────────────────────────────────────────────────────────────

-- ── Claim C8: helper lemmas ─────────────────────────────────────────────────

/-- Count of ids not yet visited. -/
def unvisCount (ids v : List Int) : Nat :=
  (ids.filter fun x => decide (¬ x ∈ v)).length

theorem unvisCount_le (ids v : List Int) : unvisCount ids v ≤ ids.length :=
  List.length_filter_le _ ids

theorem unvisCount_insert (ids : List Int) (x : Int) :
    ∀ (v : List Int), x ∈ ids → x ∉ v → ids.Nodup →
      unvisCount ids (x :: v) + 1 = unvisCount ids v := by
  induction ids with
  | nil => intro v hx _ _; simp at hx
  | cons a t ih =>
    intro v hx hnv hnd
    rw [List.nodup_cons] at hnd
    simp only [unvisCount, List.filter_cons] at *
    by_cases hax : a = x
    · subst hax
      have h1 : (decide (¬ a ∈ a :: v)) = false := by simp
      have h2 : (decide (¬ a ∈ v)) = true := by simp [hnv]
      rw [h1, h2]
      have h3 : t.filter (fun y => decide (¬ y ∈ a :: v)) =
          t.filter (fun y => decide (¬ y ∈ v)) := by
        apply List.filter_congr
        intro y hy
        have hya : ¬ (y = a) := fun h => hnd.1 (h ▸ hy)
        simp [List.mem_cons, hya]
      rw [h3]
      simp
    · have hxt : x ∈ t := by
        rcases List.mem_cons.mp hx with h | h
        · exact absurd h.symm hax
        · exact h
      have h1 : (decide (¬ a ∈ x :: v)) = (decide (¬ a ∈ v)) := by
        simp [List.mem_cons, hax]
      rw [h1]
      have h2 := ih v hxt hnv hnd.2
      by_cases ha : a ∈ v <;> simp [ha] at * <;> omega

/-- `Set.add` on integers: membership. -/
theorem mem_setAddInt (l : List Int) (x y : Int) :
    y ∈ setAddInt l x ↔ y ∈ l ∨ y = x := by
  simp only [setAddInt]
  split <;> rename_i h
  · constructor
    · exact Or.inl
    · rintro (hy | rfl)
      · exact hy
      · exact h
  · simp [List.mem_append]

theorem setAddInt_nodup (l : List Int) (x : Int) (h : l.Nodup) :
    (setAddInt l x).Nodup := by
  simp only [setAddInt]
  split <;> rename_i hx
  · exact h
  · rw [← List.concat_eq_append]
    exact List.Nodup.concat hx h

/-- A fold preserving an invariant. -/
theorem foldl_invariant {α σ : Type} (P : σ → Prop) (f : σ → α → σ)
    (hstep : ∀ s a, P s → P (f s a)) :
    ∀ (l : List α) (s : σ), P s → P (l.foldl f s) := by
  intro l
  induction l with
  | nil => exact fun s h => h
  | cons a t ih => exact fun s h => ih (f s a) (hstep s a h)

/-- The neighbor-processing fold of one BFS step: membership of the
updated visited set and queue, queue nodup-ness, queue ⊆ visited, and
preservation of the termination measure `queue length + unvisited`. -/
theorem bfs_fold_spec (ids : List Int) (hnd : ids.Nodup) :
    ∀ (ns vis q : List Int),
      (∀ x ∈ q, x ∈ vis) → q.Nodup → (∀ x ∈ ns, x ∈ ids) →
      (∀ x, x ∈ (ns.foldl (fun (p : List Int × List Int) neighbor =>
          if neighbor ∈ p.1 then p else (neighbor :: p.1, p.2 ++ [neighbor]))
          (vis, q)).1 ↔ x ∈ vis ∨ x ∈ ns) ∧
      (∀ x, x ∈ (ns.foldl (fun (p : List Int × List Int) neighbor =>
          if neighbor ∈ p.1 then p else (neighbor :: p.1, p.2 ++ [neighbor]))
          (vis, q)).2 ↔ x ∈ q ∨ (x ∈ ns ∧ x ∉ vis)) ∧
      (ns.foldl (fun (p : List Int × List Int) neighbor =>
          if neighbor ∈ p.1 then p else (neighbor :: p.1, p.2 ++ [neighbor]))
          (vis, q)).2.Nodup ∧
      (∀ x ∈ (ns.foldl (fun (p : List Int × List Int) neighbor =>
          if neighbor ∈ p.1 then p else (neighbor :: p.1, p.2 ++ [neighbor]))
          (vis, q)).2, x ∈ (ns.foldl (fun (p : List Int × List Int) neighbor =>
          if neighbor ∈ p.1 then p else (neighbor :: p.1, p.2 ++ [neighbor]))
          (vis, q)).1) ∧
      (ns.foldl (fun (p : List Int × List Int) neighbor =>
          if neighbor ∈ p.1 then p else (neighbor :: p.1, p.2 ++ [neighbor]))
          (vis, q)).2.length +
        unvisCount ids (ns.foldl (fun (p : List Int × List Int) neighbor =>
          if neighbor ∈ p.1 then p else (neighbor :: p.1, p.2 ++ [neighbor]))
          (vis, q)).1 = q.length + unvisCount ids vis := by
  intro ns
  induction ns with
  | nil =>
    intro vis q hq hqnd _
    refine ⟨fun x => ?_, fun x => ?_, hqnd, hq, rfl⟩
    · simp
    · simp
  | cons nb ns ih =>
    intro vis q hq hqnd hns
    simp only [List.foldl_cons]
    by_cases hnb : nb ∈ vis
    · rw [if_pos hnb]
      obtain ⟨i1, i2, i3, i4, i5⟩ :=
        ih vis q hq hqnd (fun x hx => hns x (List.mem_cons_of_mem nb hx))
      refine ⟨fun x => ?_, fun x => ?_, i3, i4, i5⟩
      · rw [i1 x]
        simp only [List.mem_cons]
        by_cases hxnb : x = nb
        · subst hxnb
          tauto
        · tauto
      · rw [i2 x]
        simp only [List.mem_cons]
        by_cases hxnb : x = nb
        · subst hxnb
          tauto
        · tauto
    · rw [if_neg hnb]
      have hq' : ∀ x ∈ q ++ [nb], x ∈ nb :: vis := by
        intro x hx
        rcases List.mem_append.mp hx with h | h
        · exact List.mem_cons_of_mem nb (hq x h)
        · simp at h
          simp [h]
      have hqnd' : (q ++ [nb]).Nodup := by
        rw [← List.concat_eq_append]
        exact List.Nodup.concat (fun h => hnb (hq nb h)) hqnd
      obtain ⟨i1, i2, i3, i4, i5⟩ :=
        ih (nb :: vis) (q ++ [nb]) hq' hqnd'
          (fun x hx => hns x (List.mem_cons_of_mem nb hx))
      refine ⟨fun x => ?_, fun x => ?_, i3, i4, ?_⟩
      · rw [i1 x]
        simp only [List.mem_cons]
        by_cases hxnb : x = nb
        · subst hxnb
          tauto
        · tauto
      · rw [i2 x]
        simp only [List.mem_cons, List.mem_append, List.mem_singleton]
        by_cases hxnb : x = nb
        · subst hxnb
          tauto
        · tauto
      · rw [i5, List.length_append]
        have hmeas := unvisCount_insert ids nb vis
          (hns nb (List.mem_cons_self nb ns)) hnb hnd
        simp only [List.length_cons, List.length_nil]
        omega

/-- The chain-discovery BFS, run with enough fuel from a queue already
marked visited: the final visited set is the initial one plus the
dequeued nodes; every dequeued node was initially queued or unvisited
(and then is one of the `ids`); everything queued is eventually
dequeued; and the dequeue list has no duplicates. -/
theorem bfsLoop_spec (edges : List GraphEdge) (ids : List Int) (hnd : ids.Nodup)
    (hadj : ∀ i : Int, ∀ x ∈ adjGet edges i, x ∈ ids) :
    ∀ (fuel : Nat) (queue visited acc : List Int),
      (∀ x ∈ queue, x ∈ visited) → queue.Nodup →
      (∀ x ∈ acc, x ∈ visited) → acc.Nodup → (∀ x ∈ acc, x ∉ queue) →
      queue.length + unvisCount ids visited ≤ fuel →
      (∀ x, x ∈ (bfsLoop edges fuel queue visited acc).2 ↔
        x ∈ visited ∨ x ∈ (bfsLoop edges fuel queue visited acc).1) ∧
      (∀ x ∈ (bfsLoop edges fuel queue visited acc).1,
        x ∈ acc ∨ x ∈ queue ∨ (x ∉ visited ∧ x ∈ ids)) ∧
      (∀ x ∈ acc, x ∈ (bfsLoop edges fuel queue visited acc).1) ∧
      (∀ x ∈ queue, x ∈ (bfsLoop edges fuel queue visited acc).1) ∧
      (bfsLoop edges fuel queue visited acc).1.Nodup := by
  intro fuel
  induction fuel with
  | zero =>
    intro queue visited acc hq hqnd hacc haccnd hdisj hfuel
    have hq0 : queue = [] := by
      cases queue with
      | nil => rfl
      | cons a t => simp at hfuel
    subst hq0
    simp only [bfsLoop, List.mem_reverse]
    refine ⟨fun x => ?_, fun x hx => Or.inl hx, fun x hx => hx,
      fun x hx => absurd hx (List.not_mem_nil x), List.nodup_reverse.mpr haccnd⟩
    constructor
    · exact fun h => Or.inl h
    · rintro (h | h)
      · exact h
      · exact hacc x h
  | succ fuel ih =>
    intro queue visited acc hq hqnd hacc haccnd hdisj hfuel
    cases queue with
    | nil =>
      simp only [bfsLoop, List.mem_reverse]
      refine ⟨fun x => ?_, fun x hx => Or.inl hx, fun x hx => hx,
        fun x hx => absurd hx (List.not_mem_nil x), List.nodup_reverse.mpr haccnd⟩
      constructor
      · exact fun h => Or.inl h
      · rintro (h | h)
        · exact h
        · exact hacc x h
    | cons current rest =>
      simp only [bfsLoop]
      obtain ⟨f1, f2, f3, f4, f5⟩ :=
        bfs_fold_spec ids hnd (adjGet edges current) visited rest
          (fun x hx => hq x (List.mem_cons_of_mem current hx))
          (List.Nodup.of_cons hqnd)
          (hadj current)
      have hcv : current ∈ visited := hq current (List.mem_cons_self current rest)
      have hcrest : current ∉ rest := (List.nodup_cons.mp hqnd).1
      obtain ⟨i1, i2, i3, i4, i5⟩ := ih _ _ (current :: acc)
        f4 f3
        (by
          intro x hx
          rcases List.mem_cons.mp hx with rfl | hxa
          · exact (f1 x).mpr (Or.inl hcv)
          · exact (f1 x).mpr (Or.inl (hacc x hxa)))
        (List.nodup_cons.mpr
          ⟨fun hc => hdisj current hc (List.mem_cons_self current rest), haccnd⟩)
        (by
          intro x hx hx2
          rcases (f2 x).mp hx2 with h | ⟨h1, h2⟩
          · rcases List.mem_cons.mp hx with rfl | hxa
            · exact hcrest h
            · exact hdisj x hxa (List.mem_cons_of_mem current h)
          · rcases List.mem_cons.mp hx with rfl | hxa
            · exact h2 hcv
            · exact h2 (hacc x hxa))
        (by
          rw [f5]
          simp only [List.length_cons] at hfuel
          omega)
      refine ⟨fun x => ?_, fun x hx => ?_, fun x hx => ?_, fun x hx => ?_, i5⟩
      · rw [i1 x]
        constructor
        · rintro (h | h)
          · rcases (f1 x).mp h with h' | h'
            · exact Or.inl h'
            · by_cases hv : x ∈ visited
              · exact Or.inl hv
              · exact Or.inr (i4 x ((f2 x).mpr (Or.inr ⟨h', hv⟩)))
          · exact Or.inr h
        · rintro (h | h)
          · exact Or.inl ((f1 x).mpr (Or.inl h))
          · exact Or.inr h
      · rcases i2 x hx with h | h | ⟨h1, h2⟩
        · rcases List.mem_cons.mp h with rfl | hxa
          · exact Or.inr (Or.inl (List.mem_cons_self x rest))
          · exact Or.inl hxa
        · rcases (f2 x).mp h with h' | ⟨h1, h2⟩
          · exact Or.inr (Or.inl (List.mem_cons_of_mem current h'))
          · exact Or.inr (Or.inr ⟨h2, hadj current x h1⟩)
        · refine Or.inr (Or.inr ⟨fun hv => h1 ((f1 x).mpr (Or.inl hv)), h2⟩)
      · exact i3 x (List.mem_cons_of_mem current hx)
      · rcases List.mem_cons.mp hx with rfl | hxr
        · exact i3 x (List.mem_cons_self x acc)
        · exact i4 x ((f2 x).mpr (Or.inl hxr))

/-- The outer chain loop: the discovered rounds consist of ids, avoid
the already-visited set, are pairwise disjoint and duplicate-free, and
cover every id of the iteration list that was not already visited. -/
theorem chainRounds_spec (edges : List GraphEdge) (ids : List Int)
    (hnd : ids.Nodup) (hadj : ∀ i : Int, ∀ x ∈ adjGet edges i, x ∈ ids)
    (fuel : Nat) (hfuel : ids.length + 1 ≤ fuel) :
    ∀ (iter visited : List Int), (∀ x ∈ iter, x ∈ ids) →
      (∀ r ∈ chainRounds edges fuel iter visited, ∀ x ∈ r, x ∈ ids) ∧
      (∀ r ∈ chainRounds edges fuel iter visited, ∀ x ∈ r, x ∉ visited) ∧
      (chainRounds edges fuel iter visited).Pairwise
        (fun r₁ r₂ => ∀ x ∈ r₁, x ∉ r₂) ∧
      (∀ x ∈ iter, x ∈ visited ∨ ∃ r ∈ chainRounds edges fuel iter visited, x ∈ r) ∧
      (∀ r ∈ chainRounds edges fuel iter visited, r.Nodup) := by
  intro iter
  induction iter with
  | nil =>
    intro visited _
    simp [chainRounds]
  | cons start rest ih =>
    intro visited hiter
    have hstart : start ∈ ids := hiter start (List.mem_cons_self start rest)
    by_cases hv : start ∈ visited
    · have heq : chainRounds edges fuel (start :: rest) visited =
          chainRounds edges fuel rest visited := by
        simp only [chainRounds, if_pos hv]
      obtain ⟨c1, c2, c3, c4, c5⟩ :=
        ih visited (fun x hx => hiter x (List.mem_cons_of_mem start hx))
      rw [heq]
      refine ⟨c1, c2, c3, ?_, c5⟩
      intro x hx
      rcases List.mem_cons.mp hx with rfl | hxr
      · exact Or.inl hv
      · exact c4 x hxr
    · have heq : chainRounds edges fuel (start :: rest) visited =
          (bfsLoop edges fuel [start] (start :: visited) []).1 ::
            chainRounds edges fuel rest
              (bfsLoop edges fuel [start] (start :: visited) []).2 := by
        simp only [chainRounds, if_neg hv]
      obtain ⟨b1, b2, b3, b4, b5⟩ :=
        bfsLoop_spec edges ids hnd hadj fuel [start] (start :: visited) []
          (by intro x hx; simp at hx; simp [hx])
          (List.nodup_singleton start)
          (by intro x hx; exact absurd hx (List.not_mem_nil x))
          List.nodup_nil
          (by intro x hx; exact absurd hx (List.not_mem_nil x))
          (by
            have h1 := unvisCount_le ids (start :: visited)
            simp only [List.length_singleton]
            omega)
      obtain ⟨c1, c2, c3, c4, c5⟩ :=
        ih (bfsLoop edges fuel [start] (start :: visited) []).2
          (fun x hx => hiter x (List.mem_cons_of_mem start hx))
      have hchain_ids : ∀ x ∈ (bfsLoop edges fuel [start] (start :: visited) []).1,
          x ∈ ids := by
        intro x hx
        rcases b2 x hx with h | h | ⟨_, h⟩
        · exact absurd h (List.not_mem_nil x)
        · simp at h
          subst h
          exact hstart
        · exact h
      have hchain_sub : ∀ x ∈ (bfsLoop edges fuel [start] (start :: visited) []).1,
          x ∈ (bfsLoop edges fuel [start] (start :: visited) []).2 :=
        fun x hx => (b1 x).mpr (Or.inr hx)
      have hchain_notvis : ∀ x ∈ (bfsLoop edges fuel [start] (start :: visited) []).1,
          x ∉ visited := by
        intro x hx
        rcases b2 x hx with h | h | ⟨h, _⟩
        · exact absurd h (List.not_mem_nil x)
        · simp at h
          subst h
          exact hv
        · exact fun hc => h (List.mem_cons_of_mem start hc)
      rw [heq]
      refine ⟨?_, ?_, ?_, ?_, ?_⟩
      · intro r hr
        rcases List.mem_cons.mp hr with rfl | hrr
        · exact hchain_ids
        · exact c1 r hrr
      · intro r hr
        rcases List.mem_cons.mp hr with rfl | hrr
        · exact hchain_notvis
        · intro x hx
          have h2 := c2 r hrr x hx
          exact fun hc => h2 ((b1 x).mpr (Or.inl (List.mem_cons_of_mem start hc)))
      · rw [List.pairwise_cons]
        refine ⟨?_, c3⟩
        intro r hr x hx
        intro hxr
        exact c2 r hr x hxr (hchain_sub x hx)
      · intro x hx
        rcases List.mem_cons.mp hx with rfl | hxr
        · exact Or.inr ⟨_, List.mem_cons_self _ _, b4 x (List.mem_singleton_self x)⟩
        · rcases c4 x hxr with h | ⟨r, hr, hxr2⟩
          · rcases (b1 x).mp h with h2 | h2
            · rcases List.mem_cons.mp h2 with rfl | h3
              · exact Or.inr ⟨_, List.mem_cons_self _ _,
                  b4 x (List.mem_singleton_self x)⟩
              · exact Or.inl h3
            · exact Or.inr ⟨_, List.mem_cons_self _ _, h2⟩
          · exact Or.inr ⟨r, List.mem_cons_of_mem _ hr, hxr2⟩
      · intro r hr
        rcases List.mem_cons.mp hr with rfl | hrr
        · exact b5
        · exact c5 r hrr

/-- The classification pass produces a duplicate-free node-id set, and
every recorded edge has both endpoints in it. -/
theorem replyPass_inv (messages : List TelegramMessage) (flag : Bool) :
    (replyPass messages flag).2.2.1.Nodup ∧
    (∀ e ∈ (replyPass messages flag).2.2.2,
      e.source ∈ (replyPass messages flag).2.2.1 ∧
      e.target ∈ (replyPass messages flag).2.2.1) := by
  simp only [replyPass]
  refine foldl_invariant
    (fun acc : Nat × Nat × List Int × List GraphEdge =>
      acc.2.2.1.Nodup ∧
      ∀ e ∈ acc.2.2.2, e.source ∈ acc.2.2.1 ∧ e.target ∈ acc.2.2.1)
    _ ?_ _ _ ⟨List.nodup_nil, by simp⟩
  intro s msg hP
  obtain ⟨s1, s2, s3, s4⟩ := s
  obtain ⟨hP1, hP2⟩ := hP
  cases hrt : msg.reply_to_message_id with
  | none => exact ⟨hP1, hP2⟩
  | some targetId =>
    simp only []
    split_ifs with h1 h2 <;>
      [skip; skip; exact ⟨hP1, hP2⟩] <;>
      refine ⟨setAddInt_nodup _ _ (setAddInt_nodup _ _ hP1), ?_⟩ <;>
      · intro e he
        rcases List.mem_append.mp he with h | h
        · obtain ⟨he1, he2⟩ := hP2 e h
          exact ⟨(mem_setAddInt _ _ _).mpr
              (Or.inl ((mem_setAddInt _ _ _).mpr (Or.inl he1))),
            (mem_setAddInt _ _ _).mpr
              (Or.inl ((mem_setAddInt _ _ _).mpr (Or.inl he2)))⟩
        · simp only [List.mem_singleton] at h
          subst h
          exact ⟨(mem_setAddInt _ _ _).mpr (Or.inr rfl),
            (mem_setAddInt _ _ _).mpr
              (Or.inl ((mem_setAddInt _ _ _).mpr (Or.inr rfl)))⟩

/-- Every adjacency-list neighbor is an endpoint of an edge, hence a
node id. -/
theorem adjGet_subset (messages : List TelegramMessage) (flag : Bool) :
    ∀ i : Int, ∀ x ∈ adjGet (replyPass messages flag).2.2.2 i,
      x ∈ (replyPass messages flag).2.2.1 := by
  intro i x hx
  obtain ⟨_, hedges⟩ := replyPass_inv messages flag
  simp only [adjGet, List.mem_flatMap] at hx
  obtain ⟨e, he, hxe⟩ := hx
  obtain ⟨he1, he2⟩ := hedges e he
  rcases List.mem_append.mp hxe with h | h
  · by_cases hse : e.source = i
    · rw [if_pos hse] at h
      simp only [List.mem_singleton] at h
      subst h
      exact he2
    · rw [if_neg hse] at h
      exact absurd h (List.not_mem_nil x)
  · by_cases hte : e.target = i
    · rw [if_pos hte] at h
      simp only [List.mem_singleton] at h
      subst h
      exact he1
    · rw [if_neg hte] at h
      exact absurd h (List.not_mem_nil x)

/-- A pairwise-incompatible list with at least one hit counts exactly
one hit. -/
theorem countP_eq_one_of_pairwise {α : Type} (p : α → Bool) :
    ∀ l : List α, l.Pairwise (fun a b => ¬(p a = true ∧ p b = true)) →
      (∃ a ∈ l, p a = true) → l.countP p = 1
  | [], _, hex => by simp at hex
  | a :: t, hpw, hex => by
    rw [List.pairwise_cons] at hpw
    rw [List.countP_cons]
    by_cases hpa : p a = true
    · have ht0 : t.countP p = 0 :=
        List.countP_eq_zero.mpr fun b hb hpb => hpw.1 b hb ⟨hpa, hpb⟩
      simp [ht0, hpa]
    · simp only [hpa]
      have hex' : ∃ b ∈ t, p b = true := by
        rcases hex with ⟨b, hb, hpb⟩
        rcases List.mem_cons.mp hb with rfl | hbt
        · exact absurd hpb hpa
        · exact ⟨b, hbt, hpb⟩
      simp [countP_eq_one_of_pairwise p t hpw.2 hex']

/-- Counting over an enumeration with an index-blind predicate. -/
theorem countP_enumFrom {α : Type} (q : α → Bool) :
    ∀ (l : List α) (k : Nat),
      (List.enumFrom k l).countP (fun p => q p.2) = l.countP q
  | [], _ => rfl
  | a :: t, k => by
    simp [List.enumFrom, List.countP_cons, countP_enumFrom q t (k + 1)]

/-- Membership through an enumeration. -/
theorem mem_of_mem_enumFrom {α : Type} :
    ∀ {l : List α} {k i : Nat} {a : α}, (i, a) ∈ List.enumFrom k l → a ∈ l
  | [], _, _, _, h => absurd h (List.not_mem_nil _)
  | b :: t, k, i, a, h => by
    rcases List.mem_cons.mp h with h' | h'
    · rw [Prod.mk.injEq] at h'
      exact List.mem_cons.mpr (Or.inl h'.2)
    · exact List.mem_cons_of_mem b (mem_of_mem_enumFrom h')

/-- A node's `id` field is the id it was built from. -/
theorem mkNode_id (messages : List TelegramMessage)
    (rounds : List (List Int)) (i : Int) :
    (mkNode messages rounds i).id = i := rfl

/-- A chain's node list is its round mapped through `mkNode`. -/
theorem chainOf_nodes (messages : List TelegramMessage)
    (rounds : List (List Int)) (edges : List GraphEdge)
    (idx : Nat) (round : List Int) :
    (chainOf messages rounds edges idx round).nodes =
      round.map (mkNode messages rounds) := rfl

/-- The partition property, stated over the raw pieces of
`buildReplyGraph` (node-id set, edge list, BFS rounds). -/
theorem partition_general (messages : List TelegramMessage)
    (ids : List Int) (edges : List GraphEdge) (hnd : ids.Nodup)
    (hadj : ∀ i : Int, ∀ x ∈ adjGet edges i, x ∈ ids) :
    (∀ n ∈ ids.map (mkNode messages (chainRounds edges (ids.length + 1) ids [])),
      (((chainRounds edges (ids.length + 1) ids []).enum.map fun p =>
          chainOf messages (chainRounds edges (ids.length + 1) ids []) edges
            p.1 p.2).insertionSort
        (fun a b => b.nodes.length ≤ a.nodes.length)).countP
        (fun c => decide (n ∈ c.nodes)) = 1) ∧
    (∀ c ∈ ((chainRounds edges (ids.length + 1) ids []).enum.map fun p =>
          chainOf messages (chainRounds edges (ids.length + 1) ids []) edges
            p.1 p.2).insertionSort
        (fun a b => b.nodes.length ≤ a.nodes.length),
      ∀ n ∈ c.nodes,
        n ∈ ids.map (mkNode messages (chainRounds edges (ids.length + 1) ids []))) := by
  obtain ⟨r1, r2, r3, r4, r5⟩ :=
    chainRounds_spec edges ids hnd hadj (ids.length + 1) le_rfl ids []
      (fun x hx => hx)
  set rounds := chainRounds edges (ids.length + 1) ids [] with hro
  constructor
  · intro n hn
    obtain ⟨idn, hidn, rfl⟩ := List.mem_map.mp hn
    rw [(List.perm_insertionSort
      (fun a b : ReplyChain => b.nodes.length ≤ a.nodes.length)
      (rounds.enum.map fun p =>
        chainOf messages rounds edges p.1 p.2)).countP_eq]
    rw [List.countP_map]
    have hcongr : List.countP
        ((fun c => decide (mkNode messages rounds idn ∈ c.nodes)) ∘
          fun p => chainOf messages rounds edges p.1 p.2) rounds.enum =
        List.countP (fun p : Nat × List Int => decide (idn ∈ p.2)) rounds.enum := by
      apply List.countP_congr
      intro pr hpr
      simp only [Function.comp, chainOf_nodes, decide_eq_true_eq]
      constructor
      · intro h
        obtain ⟨id2, hid2, heq⟩ := List.mem_map.mp h
        have h3 := congrArg GraphNode.id heq
        simp only [mkNode_id] at h3
        exact h3 ▸ hid2
      · exact fun h => List.mem_map_of_mem _ h
    rw [hcongr]
    rw [show List.countP (fun p : Nat × List Int => decide (idn ∈ p.2)) rounds.enum =
        List.countP (fun r => decide (idn ∈ r)) rounds from
      countP_enumFrom (fun r => decide (idn ∈ r)) rounds 0]
    apply countP_eq_one_of_pairwise
    · exact r3.imp fun hdisj hand =>
        hdisj idn (of_decide_eq_true hand.1) (of_decide_eq_true hand.2)
    · rcases r4 idn hidn with h | ⟨r, hr, hxr⟩
      · exact absurd h (List.not_mem_nil idn)
      · exact ⟨r, hr, decide_eq_true hxr⟩
  · intro c hc n hn
    rw [List.mem_insertionSort] at hc
    obtain ⟨pr, hpr, rfl⟩ := List.mem_map.mp hc
    rw [chainOf_nodes] at hn
    obtain ⟨id2, hid2, rfl⟩ := List.mem_map.mp hn
    have hr : pr.2 ∈ rounds := by
      obtain ⟨i, r⟩ := pr
      exact mem_of_mem_enumFrom hpr
    exact List.mem_map_of_mem _ (r1 pr.2 hr id2 hid2)

/-- **C8** (confirmed): for every input message list and flag value,
the chains of `buildReplyGraph` form a true partition of the returned
node list — every returned node belongs to the node set of exactly one
chain (`countP … = 1`), and every chain node is a returned node. -/
theorem claim_C8_chain_partition (messages : List TelegramMessage) (flag : Bool) :
    (∀ n ∈ (buildReplyGraph messages flag).nodes,
      (buildReplyGraph messages flag).chains.countP
        (fun c => decide (n ∈ c.nodes)) = 1) ∧
    (∀ c ∈ (buildReplyGraph messages flag).chains,
      ∀ n ∈ c.nodes, n ∈ (buildReplyGraph messages flag).nodes) := by
  obtain ⟨hnodup, -⟩ := replyPass_inv messages flag
  exact partition_general messages (replyPass messages flag).2.2.1
    (replyPass messages flag).2.2.2 hnodup (adjGet_subset messages flag)

/-- A placeholder chain, used only as the `headD` default below. -/
def dummyReplyChain : ReplyChain :=
  { id := 0, nodes := [], edges := [], rootId := 0, depth := 0 }

/-- The first chain of the C2 scenario graph. -/
def exChainC8 : ReplyChain :=
  ((buildReplyGraph [exReplyMsg] true).chains).headD dummyReplyChain

/-- The first node of that chain. -/
def exNodeC8 : GraphNode := exChainC8.nodes.headD (mkNode [] [] 0)

/-- Witness for C8: on the concrete two-node graph, a chain node is a
graph node. -/
theorem claim_C8_witness : exNodeC8 ∈ (buildReplyGraph [exReplyMsg] true).nodes :=
  (claim_C8_chain_partition [exReplyMsg] true).2 exChainC8 (by decide)
    exNodeC8 (by decide)
